import Mathlib
/-!
# Verification of the smplr sample trigger & render-cache engine

A shallow embedding of the Go sources of the `smplr` MIDI sample player:
the WAV codec (`wavfile.ReadMetadata`, `calculateWaveformData`,
`audio.StubAudio.TrimFile`), the render cache
(`wavfile.GeneratePitchedFilename`, `wavfile.RemoveAllPitchedVersions`),
the registry operations (`WavFile.MoveMarker`, the `MetadataLoadedMsg`
branch of `model.Update`, `model.handlePitchChange`, the `TrimFile` branch
of `model.handleNavigationInput`), and the MIDI trigger dispatcher
(`player.playNote`, `player.stopNote`, the debounce trigger set).

Files are byte lists (`List Nat`, each entry < 256).  Normalised samples
are rationals: the Go float64 values here are all dyadic rationals
(`v/32768` and the like), on which float64 arithmetic is exact, so `ℚ`
is a faithful carrier.  Go `int` fields are `Int`; lengths and byte
values are `Nat`.
-/

set_option maxHeartbeats 1000000
/-! ## Little-endian readers and writers

`binary.Read` into a `uint16`/`uint32` with too few bytes left leaves the
zero value in place (the Go code ignores the error for the fmt-chunk
fields), hence the `z` (zero-default) readers. -/

/-- Little-endian u16 from the head of a byte list, 0 when fewer than two
bytes remain. -/
def readU16z : List Nat → Nat
  | b0 :: b1 :: _ => b0 + 256 * b1
  | _ => 0

/-- Little-endian u32 from the head of a byte list, 0 when fewer than four
bytes remain. -/
def readU32z : List Nat → Nat
  | b0 :: b1 :: b2 :: b3 :: _ => b0 + 256 * b1 + 65536 * b2 + 16777216 * b3
  | _ => 0

/-- Little-endian encoding of a u16 (value taken mod 2^16, as the Go
`binary.Write` of a `uint16` does). -/
def encodeU16 (v : Nat) : List Nat := [v % 256, v / 256 % 256]

/-- Little-endian encoding of a u32 (value taken mod 2^32). -/
def encodeU32 (v : Nat) : List Nat :=
  [v % 256, v / 256 % 256, v / 65536 % 256, v / 16777216 % 256]

/-- The fmt-chunk fields read by both `ReadMetadata` and
`StubAudio.TrimFile` (Go struct `wavHeader`, sub-chunk 1). -/
structure FmtChunk where
  audioFormat : Nat
  numChannels : Nat
  sampleRate : Nat
  byteRate : Nat
  blockAlign : Nat
  bitsPerSample : Nat
deriving Repr, DecidableEq

/-- The outer RIFF/WAVE container check shared by `ReadMetadata` and
`TrimFile`: 4 bytes "RIFF", 4 ignored size bytes, 4 bytes "WAVE".  A file
shorter than 12 bytes leaves the zero value in the unread arrays, which
then fail the tag comparison, so the single pattern below is exact. -/
def checkMagic : List Nat → Option (List Nat)
  | 82 :: 73 :: 70 :: 70 :: _ :: _ :: _ :: _ :: 87 :: 65 :: 86 :: 69 :: rest => some rest
  | _ => none

/-- Split off a sub-chunk header: 4 id bytes and 4 size bytes.  `none`
models the `binary.Read` failure (EOF or a torn read) when fewer than 8
bytes remain, which `ReadMetadata`/`TrimFile` turn into an error. -/
def takeChunkHeader : List Nat →
    Option ((Nat × Nat × Nat × Nat) × (Nat × Nat × Nat × Nat) × List Nat)
  | i1 :: i2 :: i3 :: i4 :: z0 :: z1 :: z2 :: z3 :: body =>
    some ((i1, i2, i3, i4), (z0, z1, z2, z3), body)
  | _ => none

/-- One pass of the sub-chunk walk in `ReadMetadata`/`TrimFile`: read a
4-byte id and 4-byte size (failing like `binary.Read` does when fewer than
8 bytes remain), handle "fmt " (read 16 bytes of fields — regardless of
the declared size — then skip `size - 16` more when `size > 16`), stop at
"data" (requiring a prior fmt chunk, else "fmt chunk not found"), and skip
any other chunk by its declared size.  The fuel argument only bounds the
number of iterations; each iteration consumes at least 8 bytes, so
`length + 1` fuel (see `parseFile`) never runs out before the byte list
does. -/
def parseChunksAux : Nat → List Nat → Option FmtChunk → Option (FmtChunk × Nat × List Nat)
  | 0, _, _ => none
  | fuel + 1, bytes, fmtAcc =>
    match takeChunkHeader bytes with
    | none => none
    | some ((i1, i2, i3, i4), (z0, z1, z2, z3), body) =>
      let size := z0 + 256 * z1 + 65536 * z2 + 16777216 * z3
      if i1 = 102 ∧ i2 = 109 ∧ i3 = 116 ∧ i4 = 32 then
        let f : FmtChunk :=
          { audioFormat := readU16z body
            numChannels := readU16z (body.drop 2)
            sampleRate := readU32z (body.drop 4)
            byteRate := readU32z (body.drop 8)
            blockAlign := readU16z (body.drop 12)
            bitsPerSample := readU16z (body.drop 14) }
        parseChunksAux fuel (body.drop (max 16 size)) (some f)
      else if i1 = 100 ∧ i2 = 97 ∧ i3 = 116 ∧ i4 = 97 then
        match fmtAcc with
        | some f => some (f, size, body)
        | none => none
      else
        parseChunksAux fuel (body.drop size) fmtAcc

/-- Container check plus chunk walk, common prefix of `ReadMetadata` and
`TrimFile`: yields the fmt fields, the declared data-chunk size, and the
bytes following the data-chunk header. -/
def parseFile (bytes : List Nat) : Option (FmtChunk × Nat × List Nat) :=
  (checkMagic bytes).bind fun rest => parseChunksAux (rest.length + 1) rest none

/-! ## Sample decoding -/

/-- 8-bit unsigned sample normalisation: `(float64(v) - 128) / 128`. -/
def decQ8 (l : List Nat) : ℚ := ((l.headD 0 : ℚ) - 128) / 128

/-- 16-bit signed little-endian sample normalisation:
`float64(int16) / 32768`. -/
def decQ16 (l : List Nat) : ℚ :=
  let u := readU16z l
  let s : ℤ := if u < 32768 then (u : ℤ) else (u : ℤ) - 65536
  (s : ℚ) / 32768

/-- 24-bit signed little-endian sample normalisation. The Go sign
extension `sample |= ^0xFFFFFF` when bit 23 is set equals subtracting
2^24, since the three source bytes keep the value below 2^24. -/
def decQ24 (l : List Nat) : ℚ :=
  let u := match l with
    | b0 :: b1 :: b2 :: _ => b0 + 256 * b1 + 65536 * b2
    | _ => 0
  let s : ℤ := if u < 8388608 then (u : ℤ) else (u : ℤ) - 16777216
  (s : ℚ) / 8388608

/-- The per-sample skip for multi-channel data:
`(numChannels - 1) * bytesPerSample` when `numChannels > 1`, else no
seek. -/
def chanSkip (bps ch : Nat) : Nat := if ch > 1 then (ch - 1) * bps else 0

/-- Distance between the starts of consecutive retained samples. -/
def strideOf (bps ch : Nat) : Nat := bps + chanSkip bps ch

/-- The sample-reading loop of `ReadMetadata`, one bit depth at a time:
`samples := make([]float64, n)` is zero-initialised, the loop breaks on
`io.EOF` (no bytes at all for the next sample, leaving the zero tail in
place), errors on a torn sample (`binary.Read` returns
`io.ErrUnexpectedEOF`, which the `== io.EOF` test does not catch), and
seeks past the other channels after each retained sample. -/
def readLoop (bps ch : Nat) (dec : List Nat → ℚ) : Nat → List Nat → Option (List ℚ)
  | 0, _ => some []
  | n + 1, [] => some (List.replicate (n + 1) 0)
  | n + 1, b :: bs =>
    if (b :: bs).length < bps then none
    else
      (readLoop bps ch dec n ((b :: bs).drop (strideOf bps ch))).map
        fun rest => dec ((b :: bs).take bps) :: rest

/-- Bit-depth dispatch of the sample-reading switch in `ReadMetadata`;
any depth other than 8/16/24 is "unsupported bit depth". -/
def readSamples (bits ch n : Nat) (bytes : List Nat) : Option (List ℚ) :=
  match bits with
  | 16 => readLoop 2 ch decQ16 n bytes
  | 8 => readLoop 1 ch decQ8 n bytes
  | 24 => readLoop 3 ch decQ24 n bytes
  | _ => none

/-! ## Waveform envelope -/

/-- Maximum absolute value over `samples[start:fin]`, starting from the
accumulator 0.0 as `calculateWaveformData` does. -/
def segmentPeak (samples : List ℚ) (start fin : Nat) : ℚ :=
  ((samples.drop start).take (fin - start)).foldl (fun m x => max m |x|) 0

/-- `calculateWaveformData`: empty input gives an empty envelope; else at
most `len(samples)` segments, each of `len / numSegments` (at least 1)
samples, recording the peak per segment.  (Go would divide by zero when
`numSegments = 0` with non-empty samples; no caller passes that.) -/
def calculateWaveformData (samples : List ℚ) (numSegments : Nat) : List ℚ :=
  if samples.length = 0 then []
  else
    let seg := if numSegments > samples.length then samples.length else numSegments
    let spp := if samples.length / seg < 1 then 1 else samples.length / seg
    (List.range seg).map fun i =>
      let start := i * spp
      let fin := if start + spp > samples.length then samples.length else start + spp
      segmentPeak samples start fin

/-! ## Decode and trim -/

/-- The fields of `wavfile.Metadata` used by the core (Duration, a float
derived from `numFrames / sampleRate`, is display-only and omitted). -/
structure WavMetadata where
  sampleRate : Nat
  numFrames : Nat
  peaks : List ℚ
deriving Repr, DecidableEq

/-- `wavfile.ReadMetadata` as a function of the file bytes: parse the
container, require a non-zero block align (Go would abort on the integer
division by zero), read `dataSize / blockAlign` samples, and package the
metadata.  Returns the decoded sample sequence alongside (the Go code
computes it in the same pass). -/
def decodeWav (bytes : List Nat) : Option (WavMetadata × List ℚ) :=
  match parseFile bytes with
  | none => none
  | some (f, dataSize, rest) =>
    if f.blockAlign = 0 then none
    else
      let numSamples := dataSize / f.blockAlign
      match readSamples f.bitsPerSample f.numChannels numSamples rest with
      | none => none
      | some samples =>
        some ({ sampleRate := f.sampleRate, numFrames := samples.length,
                peaks := calculateWaveformData samples 2000 }, samples)

/-- The file `StubAudio.TrimFile` writes: canonical RIFF header, a
16-byte fmt chunk with the six fields it read, and a data chunk holding
exactly the copied bytes. -/
def mkWavFileBytes (f : FmtChunk) (dataSize : Nat) (data : List Nat) : List Nat :=
  [82, 73, 70, 70] ++ encodeU32 (36 + dataSize) ++ [87, 65, 86, 69] ++
  [102, 109, 116, 32] ++ encodeU32 16 ++
  encodeU16 f.audioFormat ++ encodeU16 f.numChannels ++ encodeU32 f.sampleRate ++
  encodeU32 f.byteRate ++ encodeU16 f.blockAlign ++ encodeU16 f.bitsPerSample ++
  [100, 97, 116, 97] ++ encodeU32 dataSize ++ data

/-- `StubAudio.TrimFile` as a function from the old file bytes to the new
ones (`none` = the call returns an error and the file is left in place):
re-parse the header, seek `startFrame * blockAlign` past the data-chunk
start, `io.ReadFull` the `(endFrame - startFrame + 1) * blockAlign`
region bytes (failing when they are not all present), and rewrite the
canonical container around them.  The declared data size plays no role.
(Go's `make` with a negative count would abort when
`endFrame + 1 < startFrame`; every caller passes an ordered region.) -/
def trimFile (bytes : List Nat) (startFrame endFrame : Nat) : Option (List Nat) :=
  match parseFile bytes with
  | none => none
  | some (f, _, rest) =>
    let n := endFrame + 1 - startFrame
    let need := n * f.blockAlign
    let after := rest.drop (startFrame * f.blockAlign)
    if after.length < need then none
    else
      let sampleData := after.take need
      some (mkWavFileBytes f sampleData.length sampleData)

/-! ## Sample registry (`wavfile.WavFile`) -/

/-- `wavfile.WavFile`.  The struct snapshot in the sources predates the
`Corrupted` flag, which every current caller (`model.Update`,
`player.playNote`, cursor movement) reads and writes; it is included here
as those callers use it. -/
structure WavFile where
  PlayingCount : Int
  Loading : Bool
  Corrupted : Bool
  MidiChannel : Int
  MidiNote : Int
  Pitch : Int
  PitchedFileName : String
  StartFrame : Int
  EndFrame : Int
  PlayerId : Int
  Metadata : Option WavMetadata
  Name : String
deriving Repr, DecidableEq

/-- A `WavFile` as `LoadFiles` constructs it before metadata arrives. -/
def loadedEntry (name : String) (note : Int) : WavFile :=
  { PlayingCount := 0, Loading := true, Corrupted := false,
    MidiChannel := 1, MidiNote := note, Pitch := 0, PitchedFileName := "",
    StartFrame := 0, EndFrame := 0, PlayerId := 0, Metadata := none, Name := name }

/-- `filepath.Ext`: the suffix of the name starting at its final dot,
empty when the final path element has no dot. -/
def extRevAux : List Char → Option (List Char)
  | [] => none
  | c :: rest =>
    if c = '/' then none
    else if c = '.' then some [c]
    else (extRevAux rest).map fun l => c :: l

/-- `filepath.Ext` on a name, via a reverse scan for the last dot. -/
def filepathExt (s : String) : String :=
  match extRevAux s.data.reverse with
  | none => ""
  | some l => String.mk l.reverse

/-- `strings.TrimSuffix`. -/
def trimSuffix (s suf : String) : String :=
  if suf.data.isSuffixOf s.data then String.mk (s.data.take (s.data.length - suf.data.length))
  else s

/-- `wavfile.GeneratePitchedFilename`: `""` for pitch 0, otherwise
`<name-without-ext>_pitch_<sign><cents><ext>` where `cents = pitch * 100`
and the sign is an explicit `+` for non-negative cents (negative cents
print their own minus). -/
def GeneratePitchedFilename (originalFilename : String) (pitch : Int) : String :=
  if pitch = 0 then ""
  else
    let ext := filepathExt originalFilename
    let nameWithoutExt := trimSuffix originalFilename ext
    let cents : Int := pitch * 100
    let sign := if 0 ≤ cents then "+" else ""
    nameWithoutExt ++ "_pitch_" ++ sign ++ toString cents ++ ext

/-- The glob pattern `RemoveAllPitchedVersions` derives for an original
file name: `<name-without-ext>_pitch_*<ext>`. -/
def pitchedGlobPattern (originalFilename : String) : String :=
  let ext := filepathExt originalFilename
  trimSuffix originalFilename ext ++ "_pitch_*" ++ ext

/-- The deletion loop of `wavfile.RemoveAllPitchedVersions` over the
`filepath.Glob` matches: `os.Remove` each match in order, and on the
first failure return the wrapped error immediately, leaving the later
matches unattempted.  Result: the matches for which removal was invoked,
and the error (if any). -/
def RemoveAllPitchedVersions (removeErr : String → Option String) :
    List String → List String × Option String
  | [] => ([], none)
  | m :: rest =>
    match removeErr m with
    | some e => ([m], some ("failed to remove " ++ m ++ ": " ++ e))
    | none =>
      let out := RemoveAllPitchedVersions removeErr rest
      (m :: out.1, out.2)

/-- `WavFile.MoveMarker`: no-op without metadata; otherwise move the
named marker by `direction * stepSize`, clamp it into
`[0, NumFrames - 1]`, and forbid crossing the other marker. -/
def MoveMarker (w : WavFile) (activeMarker : String) (direction stepSize : Int) : WavFile :=
  match w.Metadata with
  | none => w
  | some md =>
    let n : Int := md.numFrames
    if activeMarker = "start" then
      let s1 := w.StartFrame + direction * stepSize
      let s2 := if s1 < 0 then 0 else s1
      let s3 := if s2 ≥ n then n - 1 else s2
      let s4 := if s3 > w.EndFrame then w.EndFrame else s3
      { w with StartFrame := s4 }
    else if activeMarker = "end" then
      let e1 := w.EndFrame + direction * stepSize
      let e2 := if e1 < 0 then 0 else e1
      let e3 := if e2 ≥ n then n - 1 else e2
      let e4 := if e3 < w.StartFrame then w.StartFrame else e3
      { w with EndFrame := e4 }
    else w

/-- The `MetadataLoadedMsg` branch of `model.Update` (current snapshot)
for one entry: clear `Loading`; a decode error marks the entry corrupted;
otherwise attach the metadata, set `EndFrame := NumFrames - 1`, and create
the player — marking the entry corrupted (metadata kept) when creation
fails, else storing the new handle. -/
def attachMetadata (createPlayerRes : Option Int) (w : WavFile)
    (res : Option WavMetadata) : WavFile :=
  let w1 := { w with Loading := false }
  match res with
  | none => { w1 with Corrupted := true }
  | some md =>
    let w2 := { w1 with Metadata := some md, EndFrame := (md.numFrames : Int) - 1 }
    match createPlayerRes with
    | none => { w2 with Corrupted := true }
    | some pid => { w2 with PlayerId := pid }

/-- The frame-marker invariant claimed by the spec, as a decidable check:
entries with attached metadata satisfy
`0 ≤ StartFrame ≤ EndFrame < NumFrames`. -/
def markerOk (w : WavFile) : Bool :=
  match w.Metadata with
  | none => true
  | some md =>
    decide (0 ≤ w.StartFrame ∧ w.StartFrame ≤ w.EndFrame ∧ w.EndFrame < (md.numFrames : Int))

/-- The filename playback resolves to: the pitched variant when one is
set, else the original (`playNote` and the play-key handlers). -/
def activeFilename (f : WavFile) : String :=
  if f.PitchedFileName ≠ "" then f.PitchedFileName else f.Name

/-! ## Outbound audio calls and the collaborator environment -/

/-- The calls the core issues against its collaborators (native audio
engine, file system), recorded for observation. -/
inductive AudioCall
  | stopPlayer (playerId : Int)
  | playRegion (playerId : Int) (filename : String) (startFrame endFrame : Int)
  | destroyPlayer (playerId : Int)
  | createPlayer (filename : String)
  | renderPitched (src dst : String)
  | trimCall (filename : String) (startFrame endFrame : Int)
  | removeFile (filename : String)
  | readMeta (filename : String)
deriving Repr, DecidableEq

/-- Results the external collaborators return, as functions of the call
arguments (`none`/`some` mirroring Go's `nil`/non-`nil` errors). -/
structure AudioEnv where
  playRegionErr : Int → String → Int → Int → Option String
  statExists : String → Bool
  pitchedFileExists : String → Bool
  renderErr : String → String → Option String
  createPlayer : String → Option Int
  destroyErr : Int → Option String
  trimErr : String → Int → Int → Option String
  removePitchedErr : String → Option String
  readMetaRes : String → Option WavMetadata

/-! ## Trigger dispatcher (`player` package, current snapshot) -/

/-- A pending `delayedRemoveTrigger` timer: the `time.AfterFunc` call
scheduled 26 ms after a note-on removes its (channel, note) key when it
fires at `expiry`.  Scheduled timers are never cancelled — re-triggering
the same pair schedules an additional timer and leaves the earlier ones
to fire at their original deadlines.  Timers are modelled as firing
punctually: a timer armed at time `t` fires exactly at `t + 26` (the Go
timer fires no earlier than that; the model takes it to fire exactly
then). -/
structure Trig where
  channel : Nat
  note : Nat
  expiry : Nat
deriving Repr, DecidableEq

/-- `removeTrigger`: map deletion by (channel, note) key. -/
def removeTrigger (ch note : Nat) (ks : List (Nat × Nat)) : List (Nat × Nat) :=
  ks.filter fun k => ¬(k.1 = ch ∧ k.2 = note)

/-- Fire every pending removal timer whose deadline is reached by `now`:
each firing runs `removeTrigger`, unconditionally deleting its key, so a
key survives exactly when no due timer names it; the fired timers are
discarded.  Keys are unique and deletion is idempotent, so the firing
order does not matter. -/
def fireDueTimers (now : Nat) (ks : List (Nat × Nat)) (tms : List Trig) :
    List (Nat × Nat) × List Trig :=
  (ks.filter fun k => ¬ ∃ tr ∈ tms, tr.channel = k.1 ∧ tr.note = k.2 ∧ tr.expiry ≤ now,
   tms.filter fun tr => now < tr.expiry)

/-- `addTrigger`: map insertion keyed by (channel, note) — at most one
entry per key.  It cancels no pending removal timer for that key. -/
def addTrigger (ch note : Nat) (ks : List (Nat × Nat)) : List (Nat × Nat) :=
  (ch, note) :: ks.filter fun k => ¬(k.1 = ch ∧ k.2 = note)

/-- Membership test `possibleTriggers[trigger{...}]`. -/
def hasTrigger (ch note : Nat) (ks : List (Nat × Nat)) : Bool :=
  ks.any fun k => k.1 = ch ∧ k.2 = note

/-- Whether a registry entry matches a MIDI (channel, note) pair:
`file.MidiChannel == int(channel)+1 && file.MidiNote == int(note)`. -/
def midiMatches (ch note : Nat) (f : WavFile) : Prop :=
  f.MidiChannel = (ch : Int) + 1 ∧ f.MidiNote = (note : Int)

instance (ch note : Nat) (f : WavFile) : Decidable (midiMatches ch note f) := by
  unfold midiMatches; infer_instance

/-- The outcome of one `playNote` call: the updated file list, the audio
calls issued, whether the goroutine panicked (a failed `PlayRegion`),
the `PlaybackStartedMsg` payload sent on success, and whether a trigger
was recorded (with its delayed removal scheduled). -/
structure PlayNoteOut where
  files : List WavFile
  calls : List AudioCall
  panicked : Bool
  started : Option String
  newTrigger : Bool
deriving Repr, DecidableEq

/-- `player.playNote` over the file list: find the first entry matching
(channel, note); if it has metadata and is not corrupted, stop-and-zero
it when already playing, resolve the pitched-or-original filename, and
call `PlayRegion` — panicking on error, else recording the debounce
trigger and sending `PlaybackStartedMsg`.  The loop returns at the first
match whether or not it was playable, and falls through silently when
nothing matches. -/
def playNoteList (env : AudioEnv) (ch note : Nat) : List WavFile → PlayNoteOut
  | [] => ⟨[], [], false, none, false⟩
  | f :: rest =>
    if midiMatches ch note f then
      if f.Metadata.isSome ∧ ¬f.Corrupted then
        let stopped := f.PlayingCount > 0
        let f1 := if stopped then { f with PlayingCount := 0 } else f
        let calls1 : List AudioCall := if stopped then [.stopPlayer f.PlayerId] else []
        let filename := activeFilename f
        let calls2 := calls1 ++ [.playRegion f.PlayerId filename f.StartFrame f.EndFrame]
        match env.playRegionErr f.PlayerId filename f.StartFrame f.EndFrame with
        | some _ => ⟨f1 :: rest, calls2, true, none, false⟩
        | none => ⟨f1 :: rest, calls2, false, some f.Name, true⟩
      else ⟨f :: rest, [], false, none, false⟩
    else
      let out := playNoteList env ch note rest
      { out with files := f :: out.files }

/-- `player.stopNote`, past the trigger check: find the first entry
matching (channel, note) and, if it is playing, stop it and zero its
play count. -/
def stopNoteList (ch note : Nat) : List WavFile → List WavFile × List AudioCall
  | [] => ([], [])
  | f :: rest =>
    if midiMatches ch note f then
      if f.PlayingCount > 0 then ({ f with PlayingCount := 0 } :: rest, [.stopPlayer f.PlayerId])
      else (f :: rest, [])
    else
      let out := stopNoteList ch note rest
      (f :: out.1, out.2)

/-- The `PlaybackStartedMsg` branch of `model.Update`: increment the play
count of the first entry with the given name. -/
def incPlaying (name : String) : List WavFile → List WavFile
  | [] => []
  | f :: rest =>
    if f.Name = name then { f with PlayingCount := f.PlayingCount + 1 } :: rest
    else f :: incPlaying name rest

/-- Dispatcher state: the shared file list, the keys of the
`possibleTriggers` map, and the pending (never cancelled)
`time.AfterFunc` removal timers. -/
structure PState where
  files : List WavFile
  triggers : List (Nat × Nat)
  timers : List Trig
deriving Repr, DecidableEq

/-- Events the serialization point applies in order: MIDI note-on and
note-off (timestamped, so pending trigger-removal timers can fire first)
and the asynchronous `PlaybackStartedMsg` fed back from `playNote`. -/
inductive DEvent
  | noteOn (t ch note : Nat)
  | noteOff (t ch note : Nat)
  | playbackStarted (name : String)
deriving Repr, DecidableEq

/-- Result of processing one event. -/
structure StepOut where
  state : PState
  calls : List AudioCall
  panicked : Bool
deriving Repr, DecidableEq

/-- One step of the dispatcher loop.  Removal timers due by the event's
timestamp fire first.  A note-on that starts playback inserts the
(channel, note) key and arms a fresh 26 ms removal timer alongside the
surviving ones.  Note-off consults the debounce set: a present pair is
removed and otherwise ignored (noise from a percussive trigger); an
absent pair is a genuine release handled by `stopNoteList`. -/
def stepEvent (env : AudioEnv) (st : PState) : DEvent → StepOut
  | .noteOn t ch note =>
    let fired := fireDueTimers t st.triggers st.timers
    let out := playNoteList env ch note st.files
    if out.newTrigger then
      ⟨⟨out.files, addTrigger ch note fired.1, Trig.mk ch note (t + 26) :: fired.2⟩,
       out.calls, out.panicked⟩
    else ⟨⟨out.files, fired.1, fired.2⟩, out.calls, out.panicked⟩
  | .noteOff t ch note =>
    let fired := fireDueTimers t st.triggers st.timers
    if hasTrigger ch note fired.1 then
      ⟨⟨st.files, removeTrigger ch note fired.1, fired.2⟩, [], false⟩
    else
      let out := stopNoteList ch note st.files
      ⟨⟨out.1, fired.1, fired.2⟩, out.2, false⟩
  | .playbackStarted name => ⟨⟨incPlaying name st.files, st.triggers, st.timers⟩, [], false⟩

/-! ## Pitch edits (`model.handlePitchChange`, current snapshot) -/

/-- The failure cases of `handlePitchChange`, in the order the code can
hit them. -/
inductive PitchError
  | fileMissing
  | renderFailed
  | createFailed
deriving Repr, DecidableEq

/-- `model.handlePitchChange`: refuse when the original file is gone.
For pitch 0, clear `PitchedFileName`, destroy the old player (when one
exists) and recreate it on the original file.  Otherwise render the
variant unless it is already cached, then set `PitchedFileName` and
recreate the player on the variant.  Note that both player-recreation
paths mutate `PitchedFileName` *before* `CreatePlayer` can fail. -/
def handlePitchChange (env : AudioEnv) (file : WavFile) (newPitch : Int) :
    WavFile × Option PitchError × List AudioCall :=
  if ¬ env.statExists file.Name then (file, some .fileMissing, [])
  else
    let pitchedFilename := GeneratePitchedFilename file.Name newPitch
    if newPitch = 0 then
      let f1 := { file with PitchedFileName := "" }
      let calls1 : List AudioCall :=
        (if file.PlayerId ≠ 0 then [.destroyPlayer file.PlayerId] else []) ++
          [.createPlayer file.Name]
      match env.createPlayer file.Name with
      | none => (f1, some .createFailed, calls1)
      | some pid => ({ f1 with PlayerId := pid }, none, calls1)
    else
      let doRender := ¬ env.pitchedFileExists pitchedFilename
      let renderCalls : List AudioCall :=
        if doRender then [.renderPitched file.Name pitchedFilename] else []
      let renderResult := if doRender then env.renderErr file.Name pitchedFilename else none
      match renderResult with
      | some _ => (file, some .renderFailed, renderCalls)
      | none =>
        let f1 := { file with PitchedFileName := pitchedFilename }
        let calls2 := renderCalls ++
          (if file.PlayerId ≠ 0 then [.destroyPlayer file.PlayerId] else []) ++
          [.createPlayer pitchedFilename]
        match env.createPlayer pitchedFilename with
        | none => (f1, some .createFailed, calls2)
        | some pid => ({ f1 with PlayerId := pid }, none, calls2)

/-- The pitch branch of `model.handleEditingInput` (Enter): values
outside [-12, 12] do nothing; otherwise run `handlePitchChange`, and on
success — only then — store the new pitch.  On failure the (possibly
mutated) entry is kept, unless a re-`stat` shows the original file gone,
in which case the entry is removed from the list (`none`). -/
def applyPitchEdit (env : AudioEnv) (file : WavFile) (value : Int) :
    Option WavFile × Option PitchError :=
  if -12 ≤ value ∧ value ≤ 12 then
    match handlePitchChange env file value with
    | (f1, some e, _) =>
      if ¬ env.statExists f1.Name then (none, some e)
      else (some f1, some e)
    | (f1, none, _) => (some { f1 with Pitch := value }, none)
  else (some file, none)

/-! ## The trim key (`model.handleNavigationInput`, `TrimFile` case) -/

/-- The slice of the TUI model the trim-key handler touches. -/
structure UiState where
  files : List WavFile
  cursor : Int
  recording : Bool
  currentError : Option String
  markerStepSize : Int
  windowWidth : Int
deriving Repr, DecidableEq

/-- `model.adjustCursorToValidFile`: clamp the cursor into range, then if
it rests on a corrupted entry, prefer the first non-corrupted entry at or
after it, else the nearest one before it, else leave it. -/
def adjustCursorToValidFile (files : List WavFile) (cursor : Int) : Int :=
  if files.length = 0 then -1
  else
    let c1 := if cursor ≥ files.length then (files.length : Int) - 1 else cursor
    let c2 := if c1 < 0 then 0 else c1
    let i := c2.toNat
    match (files.drop i).head? with
    | none => c2
    | some f =>
      if f.Corrupted then
        match (files.drop i).findIdx? (fun g => ¬g.Corrupted) with
        | some j => (i + j : Nat)
        | none =>
          match ((files.take i).reverse).findIdx? (fun g => ¬g.Corrupted) with
          | some j => (i : Int) - 1 - (j : Int)
          | none => c2
      else c2

/-- `model.updateMarkerStepSize`: with a valid cursor and loaded
metadata, set the step to `NumFrames / windowWidth` frames per character,
at least 1.  (Both operands are non-negative in every reachable state, so
Go's truncated and Lean's Euclidean division agree.) -/
def updateMarkerStepSize (st : UiState) : UiState :=
  if st.cursor < 0 ∨ st.cursor ≥ st.files.length then st
  else
    match (st.files.drop st.cursor.toNat).head? with
    | none => st
    | some f =>
      match f.Metadata with
      | none => st
      | some md =>
        let fpc : Int := (md.numFrames : Int) / st.windowWidth
        { st with markerStepSize := if fpc < 1 then 1 else fpc }

/-- Result of the trim-key handler: the new UI state and the calls
issued. -/
structure TrimKeyOut where
  st : UiState
  calls : List AudioCall
deriving Repr, DecidableEq

/-- Replace the entry under the cursor. -/
def setAt (files : List WavFile) (i : Nat) (f : WavFile) : List WavFile :=
  files.take i ++ f :: files.drop (i + 1)

/-- The `TrimFile` case of `model.handleNavigationInput` (current
snapshot).  Any key first clears `currentError`.  Guards: not recording,
non-empty list, cursor in range.  A non-zero pitch refuses the trim with
an error message and no calls.  A vanished backing file removes the entry.
Otherwise: `TrimFile` (an error is silently dropped), then best-effort
pitched-variant removal, player destroy/recreate, and a metadata
re-decode that resets the markers to the full new range — each failure
only setting a warning message. -/
def handleTrimKey (env : AudioEnv) (st0 : UiState) : TrimKeyOut :=
  let st := { st0 with currentError := none }
  if ¬st.recording ∧ 0 < st.files.length ∧ 0 ≤ st.cursor ∧ st.cursor < st.files.length then
    let i := st.cursor.toNat
    match (st.files.drop i).head? with
    | none => ⟨st, []⟩
    | some f =>
      if f.Pitch ≠ 0 then
        let msg := "Cannot trim file with non-zero pitch. Reset pitch to 0 first."
        ⟨{ st with currentError := some msg }, []⟩
      else if ¬ env.statExists f.Name then
        let files1 := st.files.take i ++ st.files.drop (i + 1)
        ⟨{ st with currentError := some ("File does not exist: " ++ f.Name),
                   files := files1,
                   cursor := adjustCursorToValidFile files1 st.cursor }, []⟩
      else
        let trimC : List AudioCall := [.trimCall f.Name f.StartFrame f.EndFrame]
        match env.trimErr f.Name f.StartFrame f.EndFrame with
        | some _ => ⟨st, trimC⟩
        | none =>
          let err1 : Option String :=
            match env.removePitchedErr f.Name with
            | some e => some ("Warning: failed to remove pitched versions: " ++ e)
            | none => st.currentError
          let err2 : Option String :=
            match env.destroyErr f.PlayerId with
            | some e => some ("Warning: failed to destroy player: " ++ e)
            | none => err1
          let afterCreate : WavFile × Option String :=
            match env.createPlayer f.Name with
            | none => (f, some "Failed to create new player")
            | some pid => ({ f with PlayerId := pid }, err2)
          let f1 := afterCreate.1
          let calls := trimC ++ [.removeFile f.Name, .destroyPlayer f.PlayerId,
                                 .createPlayer f.Name, .readMeta f.Name]
          match env.readMetaRes f.Name with
          | some md =>
            let f2 := { f1 with Metadata := some md, StartFrame := 0,
                                EndFrame := (md.numFrames : Int) - 1 }
            ⟨updateMarkerStepSize
               { st with currentError := afterCreate.2, files := setAt st.files i f2 }, calls⟩
          | none =>
            ⟨{ st with currentError := some "Warning: failed to reload metadata",
                       files := setAt st.files i f1 }, calls⟩
  else ⟨st, []⟩

/-! ## Concrete fixtures used by the theorems below -/

def emptyWavBytes : List Nat := mkWavFileBytes ⟨1, 1, 8000, 16000, 2, 16⟩ 0 []

def envOkAll : AudioEnv :=
  { playRegionErr := fun _ _ _ _ => none
    statExists := fun _ => true
    pitchedFileExists := fun _ => false
    renderErr := fun _ _ => none
    createPlayer := fun _ => some 2
    destroyErr := fun _ => none
    trimErr := fun _ _ _ => none
    removePitchedErr := fun _ => none
    readMetaRes := fun _ => none }

def kickPitched : WavFile :=
  { loadedEntry "kick.wav" 1 with PitchedFileName := "kick_pitch_+300.wav", PlayerId := 1 }

def removeFailsFirst (s : String) : Option String :=
  if s = "kick_pitch_+100.wav" then some "permission denied" else none

def removeFailsBad (s : String) : Option String :=
  if s = "bad_pitch_+200.wav" then some "busy" else none

def mdFour : WavMetadata := { sampleRate := 8000, numFrames := 4, peaks := [] }

def kickLoaded : WavFile :=
  { loadedEntry "kick.wav" 1 with Metadata := some mdFour, EndFrame := 3, PlayerId := 1 }

def kickPitched3 : WavFile :=
  { kickLoaded with Pitch := 3, PitchedFileName := "kick_pitch_+300.wav" }

def pitchedUiState : UiState :=
  { files := [kickPitched3], cursor := 0, recording := false,
    currentError := none, markerStepSize := 1, windowWidth := 80 }

def envCreateFails : AudioEnv := { envOkAll with createPlayer := fun _ => none }

def kickZero : WavFile := { loadedEntry "kick.wav" 1 with PlayerId := 1 }

def envPlayFails : AudioEnv :=
  { envOkAll with playRegionErr := fun _ _ _ _ => some "failed to play region" }

def s2c : PState :=
  (stepEvent envOkAll ((stepEvent envOkAll ⟨[] ++ kickLoaded :: [], [], []⟩
    (DEvent.noteOn 0 0 1)).state) (DEvent.playbackStarted kickLoaded.Name)).state

/-- Dispatcher state after note-on at t = 0, playback started, note-on
at t = 20, playback started again: the (0, 1) key is present and removal
timers are pending at 26 and 46. -/
def s5c : PState :=
  (stepEvent envOkAll ((stepEvent envOkAll ((stepEvent envOkAll ((stepEvent envOkAll
    ⟨[kickLoaded], [], []⟩ (DEvent.noteOn 0 0 1)).state)
    (DEvent.playbackStarted kickLoaded.Name)).state) (DEvent.noteOn 20 0 1)).state)
    (DEvent.playbackStarted kickLoaded.Name)).state

/-- The field bounds every fmt chunk read from genuine bytes satisfies. -/
def FmtValid (f : FmtChunk) : Prop :=
  f.audioFormat < 65536 ∧ f.numChannels < 65536 ∧ f.sampleRate < 4294967296 ∧
  f.byteRate < 4294967296 ∧ f.blockAlign < 65536 ∧ f.bitsPerSample < 65536

instance (f : FmtChunk) : Decidable (FmtValid f) := by
  unfold FmtValid; infer_instance

/-- The per-depth normalisation function the sample loop applies. -/
def decFor (bits : Nat) : List Nat → ℚ :=
  match bits with
  | 8 => decQ8
  | 16 => decQ16
  | 24 => decQ24
  | _ => fun _ => 0

def truncatedWavBytes : List Nat := mkWavFileBytes ⟨1, 1, 8000, 16000, 2, 16⟩ 4 [5, 0]

def inconsistentWavBytes : List Nat :=
  mkWavFileBytes ⟨1, 1, 8000, 16000, 4, 16⟩ 8 [1, 0, 2, 0, 3, 0, 4, 0]

def goodWavBytes : List Nat :=
  mkWavFileBytes ⟨1, 1, 8000, 16000, 2, 16⟩ 8 [1, 0, 2, 0, 3, 0, 4, 0]

def goodTrimmed : List Nat := mkWavFileBytes ⟨1, 1, 8000, 16000, 2, 16⟩ 4 [2, 0, 3, 0]

/-! ## Theorems -/

lemma segmentPeak_single (samples : List ℚ) (i : Nat) (hi : i < samples.length) :
    segmentPeak samples i (i + 1) = |samples[i]| := by
  unfold segmentPeak
  rw [List.drop_eq_getElem_cons hi]
  simp only [Nat.add_sub_cancel_left, List.take_succ_cons, List.take_zero,
    List.foldl_cons, List.foldl_nil]
  exact max_eq_right (abs_nonneg _)

/-- C8: `calculateWaveformData` on `n` samples with `maxSegments >= n`
produces exactly `n` peaks, peak `i` equal to `abs(sample i)`; the empty
sample sequence yields an empty envelope, and a zero-length WAV file
(`emptyWavBytes`) decodes with no error to an empty envelope. -/
theorem c8_envelope :
    (∀ (samples : List ℚ) (maxSegments : Nat), samples.length ≤ maxSegments →
      calculateWaveformData samples maxSegments = samples.map (fun x => |x|)) ∧
    decodeWav emptyWavBytes = some ({ sampleRate := 8000, numFrames := 0, peaks := [] }, []) := by
  constructor
  · intro samples m h
    by_cases hn : samples.length = 0
    · have : samples = [] := List.eq_nil_of_length_eq_zero hn
      subst this; simp [calculateWaveformData]
    · have hlen : 1 ≤ samples.length := Nat.one_le_iff_ne_zero.mpr hn
      have hseg : (if m > samples.length then samples.length else m) = samples.length := by
        by_cases hm : m > samples.length
        · rw [if_pos hm]
        · rw [if_neg hm]; omega
      have hspp : samples.length / samples.length = 1 := Nat.div_self hlen
      unfold calculateWaveformData
      rw [if_neg hn]
      simp only [hseg, hspp, if_neg (by omega : ¬(1 : Nat) < 1)]
      apply List.ext_getElem
      · simp
      · intro i h1 h2
        simp only [List.getElem_map, List.getElem_range, Nat.mul_one]
        have hi : i < samples.length := by simpa using h1
        rw [if_neg (by omega : ¬ i + 1 > samples.length)]
        exact segmentPeak_single samples i hi
  · decide

/-- Witness for C8 at a concrete two-sample input. -/
theorem c8_envelope_witness :
    ([(1 : ℚ)/2, -3] : List ℚ).length ≤ 5 ∧
    calculateWaveformData [(1 : ℚ)/2, -3] 5 = ([(1 : ℚ)/2, -3] : List ℚ).map (fun x => |x|) :=
  ⟨by decide, c8_envelope.1 [(1 : ℚ)/2, -3] 5 (by decide)⟩

/-- C9: `GeneratePitchedFilename` is a pure function of (name, semitones)
that returns `""` exactly when the pitch is 0, names the +3-semitone
variant of `kick.wav` as `kick_pitch_+300.wav`, and a pitch edit back to 0
clears the entry's variant so playback resolves to the original file,
without issuing any file deletion. -/
theorem c9_variant_naming :
    (∀ (orig : String) (p : Int), GeneratePitchedFilename orig p = "" ↔ p = 0) ∧
    GeneratePitchedFilename "kick.wav" 3 = "kick_pitch_+300.wav" ∧
    (∀ (env : AudioEnv) (f : WavFile), env.statExists f.Name = true →
      (handlePitchChange env f 0).1.PitchedFileName = "" ∧
      activeFilename (handlePitchChange env f 0).1 = f.Name ∧
      ∀ s, AudioCall.removeFile s ∉ (handlePitchChange env f 0).2.2) := by
  refine ⟨?_, by decide, ?_⟩
  · intro orig p
    constructor
    · intro h
      by_contra hp
      unfold GeneratePitchedFilename at h
      rw [if_neg hp] at h
      have hlen := congrArg String.length h
      have h7 : ("_pitch_" : String).length = 7 := rfl
      have h0 : ("" : String).length = 0 := rfl
      simp only [String.length_append] at hlen
      omega
    · intro h; subst h; simp [GeneratePitchedFilename]
  · intro env f hstat
    refine ⟨?_, ?_, ?_⟩
    · cases hc : env.createPlayer f.Name <;> simp [handlePitchChange, hstat, hc]
    · cases hc : env.createPlayer f.Name <;> simp [handlePitchChange, hstat, hc, activeFilename]
    · intro s
      cases hc : env.createPlayer f.Name <;>
        by_cases hpid : f.PlayerId ≠ 0 <;>
        simp [handlePitchChange, hstat, hc, hpid]

/-- Witness for C9's pitch-0 clause on a concrete entry carrying a
variant. -/
theorem c9_witness :
    envOkAll.statExists kickPitched.Name = true ∧
    ((handlePitchChange envOkAll kickPitched 0).1.PitchedFileName = "" ∧
     activeFilename (handlePitchChange envOkAll kickPitched 0).1 = kickPitched.Name ∧
     ∀ s, AudioCall.removeFile s ∉ (handlePitchChange envOkAll kickPitched 0).2.2) :=
  ⟨rfl, c9_variant_naming.2.2 envOkAll kickPitched rfl⟩

/-- C6 counterexample: with two matched variants and the first deletion
failing, `RemoveAllPitchedVersions` attempts only the first — the second
matched variant is never attempted, refuting the best-effort claim. -/
theorem c6_counterexample :
    (RemoveAllPitchedVersions removeFailsFirst
        ["kick_pitch_+100.wav", "kick_pitch_+200.wav"]).1 = ["kick_pitch_+100.wav"] ∧
    "kick_pitch_+200.wav" ∉ (RemoveAllPitchedVersions removeFailsFirst
        ["kick_pitch_+100.wav", "kick_pitch_+200.wav"]).1 ∧
    (RemoveAllPitchedVersions removeFailsFirst
        ["kick_pitch_+100.wav", "kick_pitch_+200.wav"]).2.isSome = true := by decide

/-- C6 (amended): the deletion loop is fail-fast, not best-effort — the
first failing `os.Remove` is reported as a wrapped error and every match
after it is left unattempted (and with no failures, all matches are
removed and no error is returned). -/
theorem c6_abort_on_failure :
    ∀ (removeErr : String → Option String) (pre : List String) (x : String) (post : List String),
      (∀ y ∈ pre, removeErr y = none) → (removeErr x).isSome = true →
      (RemoveAllPitchedVersions removeErr (pre ++ x :: post)).1 = pre ++ [x] ∧
      (RemoveAllPitchedVersions removeErr (pre ++ x :: post)).2.isSome = true := by
  intro re pre x post hpre hx
  induction pre with
  | nil =>
    obtain ⟨e, he⟩ := Option.isSome_iff_exists.mp hx
    simp [RemoveAllPitchedVersions, he]
  | cons y ys ih =>
    have hy : re y = none := hpre y (by simp)
    have hys : ∀ z ∈ ys, re z = none := fun z hz => hpre z (by simp [hz])
    obtain ⟨h1, h2⟩ := ih hys
    simp [RemoveAllPitchedVersions, hy, h1, h2]

/-- Witness for C6's amended fail-fast behaviour. -/
theorem c6_witness :
    (∀ y ∈ (["a_pitch_+100.wav"] : List String), removeFailsBad y = none) ∧
    (removeFailsBad "bad_pitch_+200.wav").isSome = true ∧
    ((RemoveAllPitchedVersions removeFailsBad
        (["a_pitch_+100.wav"] ++ "bad_pitch_+200.wav" :: ["c_pitch_-300.wav"])).1 =
      ["a_pitch_+100.wav"] ++ ["bad_pitch_+200.wav"] ∧
     (RemoveAllPitchedVersions removeFailsBad
        (["a_pitch_+100.wav"] ++ "bad_pitch_+200.wav" :: ["c_pitch_-300.wav"])).2.isSome = true) :=
  ⟨by decide, by decide,
   c6_abort_on_failure removeFailsBad ["a_pitch_+100.wav"] "bad_pitch_+200.wav"
     ["c_pitch_-300.wav"] (by decide) (by decide)⟩

/-- C3 counterexample: a structurally valid WAV file with an empty data
chunk decodes (no error) to `frameCount = 0`, and attaching that metadata
to a freshly loaded entry sets `EndFrame = -1`, violating
`0 <= startFrame <= endFrame < frameCount`. -/
theorem c3_counterexample :
    decodeWav emptyWavBytes =
      some ({ sampleRate := 8000, numFrames := 0, peaks := [] }, []) ∧
    markerOk (attachMetadata (some 1) (loadedEntry "empty.wav" 1)
      (some { sampleRate := 8000, numFrames := 0, peaks := [] })) = false := by decide

/-- C3 (amended): for metadata with `frameCount >= 1`, the marker
invariant `0 <= startFrame <= endFrame < frameCount` holds immediately
after the metadata is attached to a fresh entry, and is preserved by
`MoveMarker` for both markers and every direction and step size. -/
theorem c3_marker_invariant :
    (∀ (w : WavFile) (md : WavMetadata) (cp : Option Int),
        w.StartFrame = 0 → 1 ≤ md.numFrames →
        markerOk (attachMetadata cp w (some md)) = true) ∧
    (∀ (w : WavFile) (am : String) (d s : Int),
        markerOk w = true → markerOk (MoveMarker w am d s) = true) := by
  constructor
  · intro w md cp hs hn
    cases cp <;> simp [attachMetadata, markerOk, hs] <;> omega
  · intro w am d s h
    cases hm : w.Metadata with
    | none => simpa [MoveMarker, hm] using h
    | some md =>
      simp only [markerOk, hm, decide_eq_true_eq] at h
      by_cases h1 : am = "start"
      · simp only [MoveMarker, hm, if_pos h1, markerOk, decide_eq_true_eq]
        split_ifs <;> simp_all <;> omega
      · by_cases h2 : am = "end"
        · simp only [MoveMarker, hm, if_neg h1, if_pos h2, markerOk, decide_eq_true_eq]
          split_ifs <;> simp_all <;> omega
        · simp only [MoveMarker, hm, if_neg h1, if_neg h2, markerOk, decide_eq_true_eq]
          exact h

/-- Witness for C3 on a four-frame entry. -/
theorem c3_witness :
    ((loadedEntry "kick.wav" 1).StartFrame = 0 ∧ 1 ≤ mdFour.numFrames ∧
      markerOk (attachMetadata (some 1) (loadedEntry "kick.wav" 1) (some mdFour)) = true) ∧
    (markerOk kickLoaded = true ∧ markerOk (MoveMarker kickLoaded "start" 1 5) = true) :=
  ⟨⟨rfl, by decide, c3_marker_invariant.1 (loadedEntry "kick.wav" 1) mdFour (some 1) rfl (by decide)⟩,
   ⟨by decide, c3_marker_invariant.2 kickLoaded "start" 1 5 (by decide)⟩⟩

/-- C10: with a non-zero pitch on the selected entry, the trim key
performs no trim, no cache invalidation and no metadata re-decode — it
issues no collaborator calls, leaves the file list and cursor unchanged,
and only sets the operator-visible error message. -/
theorem c10_trim_refused_nonzero_pitch :
    ∀ (env : AudioEnv) (st : UiState) (f : WavFile),
      st.recording = false → 0 ≤ st.cursor → st.cursor < st.files.length →
      (st.files.drop st.cursor.toNat).head? = some f → f.Pitch ≠ 0 →
      (handleTrimKey env st).calls = [] ∧
      (handleTrimKey env st).st.files = st.files ∧
      (handleTrimKey env st).st.cursor = st.cursor ∧
      (handleTrimKey env st).st.currentError =
        some "Cannot trim file with non-zero pitch. Reset pitch to 0 first." := by
  intro env st f hrec hc0 hc1 hf hp
  have hlen : 0 < st.files.length := by omega
  simp only [handleTrimKey, hrec, hc0, hc1, hlen, Bool.false_eq_true, not_false_eq_true,
    true_and, and_true, if_pos, hf, hp, ite_not]
  exact ⟨rfl, rfl, rfl, rfl⟩

/-- Witness for C10 on a concrete pitched entry. -/
theorem c10_witness :
    pitchedUiState.recording = false ∧ 0 ≤ pitchedUiState.cursor ∧
    pitchedUiState.cursor < pitchedUiState.files.length ∧
    (pitchedUiState.files.drop pitchedUiState.cursor.toNat).head? = some kickPitched3 ∧
    kickPitched3.Pitch ≠ 0 ∧
    ((handleTrimKey envOkAll pitchedUiState).calls = [] ∧
     (handleTrimKey envOkAll pitchedUiState).st.files = pitchedUiState.files ∧
     (handleTrimKey envOkAll pitchedUiState).st.cursor = pitchedUiState.cursor ∧
     (handleTrimKey envOkAll pitchedUiState).st.currentError =
       some "Cannot trim file with non-zero pitch. Reset pitch to 0 first.") :=
  ⟨rfl, by decide, by decide, rfl, by decide,
   c10_trim_refused_nonzero_pitch envOkAll pitchedUiState kickPitched3
     rfl (by decide) (by decide) rfl (by decide)⟩

/-- C4 counterexample: a +3-semitone edit whose render succeeds but whose
player creation fails leaves the entry's `PitchedFileName` already set to
the new variant name — not its pre-edit value — refuting atomicity. -/
theorem c4_counterexample :
    kickZero.PitchedFileName = "" ∧
    (applyPitchEdit envCreateFails kickZero 3).2 = some PitchError.createFailed ∧
    (applyPitchEdit envCreateFails kickZero 3).1.map WavFile.PitchedFileName =
      some "kick_pitch_+300.wav" := by decide

lemma hpc_fields (env : AudioEnv) (f : WavFile) (v : Int) :
    (handlePitchChange env f v).1.Pitch = f.Pitch ∧
    (handlePitchChange env f v).1.Name = f.Name ∧
    ((handlePitchChange env f v).2.1.isSome = true →
      (handlePitchChange env f v).1.PlayerId = f.PlayerId) := by
  unfold handlePitchChange
  split_ifs <;>
    cases hc0 : env.createPlayer f.Name <;>
    cases hr : (if env.pitchedFileExists (GeneratePitchedFilename f.Name v) = false
        then env.renderErr f.Name (GeneratePitchedFilename f.Name v) else none) <;>
    cases hc1 : env.createPlayer (GeneratePitchedFilename f.Name v) <;>
    simp [hc0, hr, hc1]

/-- C4 (amended): `pitchSemitones` and `playerHandle` always keep their
pre-edit values on a failed pitch edit, and a failed render leaves the
whole entry untouched; but a failed player-handle creation leaves
`renderedVariantName` switched to the new active name — the variant name
for a non-zero target (third clause), the empty string for target 0
(fourth clause). -/
theorem c4_partial_rollback :
    ∀ (env : AudioEnv) (f : WavFile) (v : Int), -12 ≤ v → v ≤ 12 →
      (∀ f1 e, applyPitchEdit env f v = (some f1, some e) →
        f1.Pitch = f.Pitch ∧ f1.PlayerId = f.PlayerId ∧ f1.Name = f.Name) ∧
      (v ≠ 0 → env.statExists f.Name = true →
        env.pitchedFileExists (GeneratePitchedFilename f.Name v) = false →
        (env.renderErr f.Name (GeneratePitchedFilename f.Name v)).isSome = true →
        applyPitchEdit env f v = (some f, some PitchError.renderFailed)) ∧
      (v ≠ 0 → env.statExists f.Name = true →
        (if env.pitchedFileExists (GeneratePitchedFilename f.Name v) then (none : Option String)
         else env.renderErr f.Name (GeneratePitchedFilename f.Name v)) = none →
        env.createPlayer (GeneratePitchedFilename f.Name v) = none →
        applyPitchEdit env f v =
          (some { f with PitchedFileName := GeneratePitchedFilename f.Name v },
           some PitchError.createFailed)) ∧
      (v = 0 → env.statExists f.Name = true →
        env.createPlayer f.Name = none →
        applyPitchEdit env f v =
          (some { f with PitchedFileName := "" }, some PitchError.createFailed)) := by
  intro env f v hv1 hv2
  have hrange : -12 ≤ v ∧ v ≤ 12 := ⟨hv1, hv2⟩
  refine ⟨?_, ?_, ?_, ?_⟩
  · intro f1 e happ
    rw [applyPitchEdit, if_pos hrange] at happ
    have hf := hpc_fields env f v
    rcases hpc : handlePitchChange env f v with ⟨f2, oe, calls⟩
    rw [hpc] at happ hf
    cases oe with
    | none => simp at happ
    | some e2 =>
      have happ2 : (if ¬env.statExists f2.Name = true then ((none : Option WavFile), some e2)
          else (some f2, some e2)) = (some f1, some e) := happ
      by_cases hstat : env.statExists f2.Name = true
      · rw [if_neg (by simp [hstat])] at happ2
        simp only [Prod.mk.injEq, Option.some.injEq] at happ2
        obtain ⟨h1, h2⟩ := happ2
        subst h1
        exact ⟨hf.1, hf.2.2 (by simp), hf.2.1⟩
      · rw [if_pos (by simpa using hstat)] at happ2
        simp at happ2
  · intro hv0 hstat hpe hre
    obtain ⟨er, her⟩ := Option.isSome_iff_exists.mp hre
    have hpc : handlePitchChange env f v =
        (f, some PitchError.renderFailed,
         [AudioCall.renderPitched f.Name (GeneratePitchedFilename f.Name v)]) := by
      simp [handlePitchChange, hstat, hv0, hpe, her]
    rw [applyPitchEdit, if_pos hrange, hpc]
    simp [hstat]
  · intro hv0 hstat hrr hcp
    by_cases hpe : env.pitchedFileExists (GeneratePitchedFilename f.Name v) = true
    · have hpc : handlePitchChange env f v =
          ({ f with PitchedFileName := GeneratePitchedFilename f.Name v },
           some PitchError.createFailed,
           (if f.PlayerId ≠ 0 then [AudioCall.destroyPlayer f.PlayerId] else []) ++
             [AudioCall.createPlayer (GeneratePitchedFilename f.Name v)]) := by
        simp [handlePitchChange, hstat, hv0, hpe, hcp]
      rw [applyPitchEdit, if_pos hrange, hpc]
      simp [hstat]
    · have hrender : env.renderErr f.Name (GeneratePitchedFilename f.Name v) = none := by
        simpa [hpe] using hrr
      have hpc : handlePitchChange env f v =
          ({ f with PitchedFileName := GeneratePitchedFilename f.Name v },
           some PitchError.createFailed,
           [AudioCall.renderPitched f.Name (GeneratePitchedFilename f.Name v)] ++
             (if f.PlayerId ≠ 0 then [AudioCall.destroyPlayer f.PlayerId] else []) ++
             [AudioCall.createPlayer (GeneratePitchedFilename f.Name v)]) := by
        simp [handlePitchChange, hstat, hv0, hpe, hcp, hrender]
      rw [applyPitchEdit, if_pos hrange, hpc]
      simp [hstat]
  · intro hv0 hstat hcp
    subst hv0
    have hpc : handlePitchChange env f 0 =
        ({ f with PitchedFileName := "" }, some PitchError.createFailed,
         (if f.PlayerId ≠ 0 then [AudioCall.destroyPlayer f.PlayerId] else []) ++
           [AudioCall.createPlayer f.Name]) := by
      simp [handlePitchChange, hstat, hcp]
    rw [applyPitchEdit, if_pos hrange, hpc]
    simp [hstat]

/-- Witness for C4's player-creation-failure clauses, non-zero and zero
target alike. -/
theorem c4_witness :
    (applyPitchEdit envCreateFails kickZero 3 =
      (some { kickZero with PitchedFileName := GeneratePitchedFilename kickZero.Name 3 },
       some PitchError.createFailed)) ∧
    (applyPitchEdit envCreateFails kickPitched3 0 =
      (some { kickPitched3 with PitchedFileName := "" }, some PitchError.createFailed)) :=
  ⟨(c4_partial_rollback envCreateFails kickZero 3 (by decide) (by decide)).2.2.1
     (by decide) rfl rfl rfl,
   (c4_partial_rollback envCreateFails kickPitched3 0 (by decide) (by decide)).2.2.2
     rfl rfl rfl⟩

lemma playNoteList_skip (env : AudioEnv) (ch note : Nat) (pre rest : List WavFile)
    (h : ∀ g ∈ pre, ¬midiMatches ch note g) :
    playNoteList env ch note (pre ++ rest) =
      { playNoteList env ch note rest with
          files := pre ++ (playNoteList env ch note rest).files } := by
  induction pre with
  | nil => simp
  | cons g gs ih =>
    have hg : ¬midiMatches ch note g := h g (by simp)
    have hgs : ∀ x ∈ gs, ¬midiMatches ch note x := fun x hx => h x (by simp [hx])
    simp [playNoteList, if_neg hg, ih hgs]

lemma playNoteList_nomatch (env : AudioEnv) (ch note : Nat) (files : List WavFile)
    (h : ∀ g ∈ files, ¬midiMatches ch note g) :
    playNoteList env ch note files = ⟨files, [], false, none, false⟩ := by
  have := playNoteList_skip env ch note files [] h
  simpa [playNoteList] using this

lemma stopNoteList_skip (ch note : Nat) (pre rest : List WavFile)
    (h : ∀ g ∈ pre, ¬midiMatches ch note g) :
    stopNoteList ch note (pre ++ rest) =
      (pre ++ (stopNoteList ch note rest).1, (stopNoteList ch note rest).2) := by
  induction pre with
  | nil => simp
  | cons g gs ih =>
    have hg : ¬midiMatches ch note g := h g (by simp)
    have hgs : ∀ x ∈ gs, ¬midiMatches ch note x := fun x hx => h x (by simp [hx])
    simp [stopNoteList, if_neg hg, ih hgs]

lemma incPlaying_skip (name : String) (pre rest : List WavFile)
    (h : ∀ g ∈ pre, g.Name ≠ name) :
    incPlaying name (pre ++ rest) = pre ++ incPlaying name rest := by
  induction pre with
  | nil => simp
  | cons g gs ih =>
    have hg : g.Name ≠ name := h g (by simp)
    have hgs : ∀ x ∈ gs, x.Name ≠ name := fun x hx => h x (by simp [hx])
    simp [incPlaying, if_neg hg, ih hgs]

/-- C1 counterexample: when `PlayRegion` returns an error for a matching,
playable entry, `playNote` panics — the error is not surfaced as a value
and the dispatcher loop does not survive to the next event. -/
theorem c1_counterexample :
    (stepEvent envPlayFails ⟨[kickLoaded], [], []⟩ (DEvent.noteOn 0 0 1)).panicked = true := by
  decide

/-- C1 (amended): a rejected play-region call makes `playNote` panic
(aborting the dispatcher) rather than return an error value; a successful
call completes normally so the next event is processed, and a note-on
with no matching entry is a silent no-op. -/
theorem c1_play_error_panics :
    ∀ (env : AudioEnv) (ks : List (Nat × Nat)) (tms : List Trig) (t ch note : Nat)
      (pre post : List WavFile) (f : WavFile),
      (∀ g ∈ pre, ¬midiMatches ch note g) →
      midiMatches ch note f →
      f.Metadata.isSome = true → f.Corrupted = false →
      ((env.playRegionErr f.PlayerId (activeFilename f) f.StartFrame f.EndFrame).isSome = true →
        (stepEvent env ⟨pre ++ f :: post, ks, tms⟩ (DEvent.noteOn t ch note)).panicked = true) ∧
      (env.playRegionErr f.PlayerId (activeFilename f) f.StartFrame f.EndFrame = none →
        (stepEvent env ⟨pre ++ f :: post, ks, tms⟩ (DEvent.noteOn t ch note)).panicked = false) ∧
      (∀ (files : List WavFile), (∀ g ∈ files, ¬midiMatches ch note g) →
        stepEvent env ⟨files, ks, tms⟩ (DEvent.noteOn t ch note) =
          ⟨⟨files, (fireDueTimers t ks tms).1, (fireDueTimers t ks tms).2⟩, [], false⟩) := by
  intro env ks tms t ch note pre post f hpre hf hmeta hcorr
  refine ⟨?_, ?_, ?_⟩
  · intro herr
    obtain ⟨msg, hmsg⟩ := Option.isSome_iff_exists.mp herr
    simp [stepEvent, playNoteList_skip env ch note pre (f :: post) hpre,
      playNoteList, if_pos hf, hmeta, hcorr, hmsg]
  · intro hok
    simp [stepEvent, playNoteList_skip env ch note pre (f :: post) hpre,
      playNoteList, if_pos hf, hmeta, hcorr, hok]
  · intro files hall
    simp [stepEvent, playNoteList_nomatch env ch note files hall]

/-- Witness for C1's panic clause on a concrete failing environment. -/
theorem c1_witness :
    (stepEvent envPlayFails ⟨[] ++ kickLoaded :: [], [], []⟩
      (DEvent.noteOn 0 0 1)).panicked = true :=
  (c1_play_error_panics envPlayFails [] [] 0 0 1 [] [] kickLoaded (by simp) (by decide)
    (by decide) rfl).1 rfl

lemma hasTrigger_survives (ch note t tOff : Nat) (K : List (Nat × Nat)) (T : List Trig)
    (hlt : tOff < t + 26) (hT : ∀ tr ∈ T, ¬(tr.channel = ch ∧ tr.note = note)) :
    hasTrigger ch note
      (fireDueTimers tOff (addTrigger ch note K) (Trig.mk ch note (t + 26) :: T)).1 = true := by
  have hpred : ¬ ∃ tr ∈ (Trig.mk ch note (t + 26) :: T),
      tr.channel = ch ∧ tr.note = note ∧ tr.expiry ≤ tOff := by
    rintro ⟨tr, htr, h1, h2, h3⟩
    rcases List.mem_cons.mp htr with heq | hmem
    · subst heq
      have : t + 26 ≤ tOff := h3
      omega
    · exact hT tr hmem ⟨h1, h2⟩
  unfold hasTrigger fireDueTimers addTrigger
  rw [List.any_eq_true]
  exact ⟨(ch, note), List.mem_filter.mpr ⟨by simp, by simpa using hpred⟩, by simp⟩

lemma hasTrigger_fired (ch note t tOff : Nat) (K : List (Nat × Nat)) (T : List Trig)
    (hle : t + 26 ≤ tOff) :
    hasTrigger ch note
      (fireDueTimers tOff (addTrigger ch note K) (Trig.mk ch note (t + 26) :: T)).1 = false := by
  unfold hasTrigger
  rw [List.any_eq_false]
  intro k hk
  unfold fireDueTimers addTrigger at hk
  rw [List.mem_filter] at hk
  have hnot : ¬ ∃ tr ∈ (Trig.mk ch note (t + 26) :: T),
      tr.channel = k.1 ∧ tr.note = k.2 ∧ tr.expiry ≤ tOff := of_decide_eq_true hk.2
  simp only [decide_eq_true_eq]
  rintro ⟨h1, h2⟩
  apply hnot
  refine ⟨Trig.mk ch note (t + 26), by simp, ?_, ?_, hle⟩
  · simpa using h1.symm
  · simpa using h2.symm

/-- C5 counterexample: the grace window is not reliably 26 ms from the
latest note-on — a removal timer armed by an earlier note-on of the same
(channel, note) pair is never cancelled and deletes the trigger at its
original deadline.  After note-ons at t = 0 and t = 20, a note-off at
t = 30 lies inside the second note-on's window (30 < 20 + 26), yet the
first timer fired at t = 26, so the note-off reaches `stopNote` and
stops the player. -/
theorem c5_counterexample :
    (30 : Nat) < 20 + 26 ∧
    (stepEvent envOkAll s5c (DEvent.noteOff 30 0 1)).calls =
      [AudioCall.stopPlayer kickLoaded.PlayerId] := by
  decide

/-- C5 (amended): provided no removal timer for the (channel, note) pair
is still pending from an earlier note-on, a note-on followed within the
26 ms grace window by a note-off for the same pair leaves playback
untouched (the note-off is consumed from the debounce set with no stop
call); a note-off arriving at or after the window's end with no
intervening note-on stops the matching entry's player and zeroes its
play count.  `time.AfterFunc` timers are modelled as firing punctually
at their deadline. -/
theorem c5_debounce :
    ∀ (env : AudioEnv) (ks : List (Nat × Nat)) (tms : List Trig) (pre post : List WavFile)
      (f : WavFile) (t tOff ch note : Nat),
      (∀ g ∈ pre, ¬midiMatches ch note g) →
      midiMatches ch note f →
      f.Metadata.isSome = true → f.Corrupted = false →
      0 ≤ f.PlayingCount →
      env.playRegionErr f.PlayerId (activeFilename f) f.StartFrame f.EndFrame = none →
      (∀ g ∈ pre, g.Name ≠ f.Name) →
      (∀ tr ∈ tms, ¬(tr.channel = ch ∧ tr.note = note)) →
      ∀ s2 : PState,
        s2 = (stepEvent env ((stepEvent env ⟨pre ++ f :: post, ks, tms⟩
                (DEvent.noteOn t ch note)).state) (DEvent.playbackStarted f.Name)).state →
        (tOff < t + 26 →
          (stepEvent env s2 (DEvent.noteOff tOff ch note)).calls = [] ∧
          (stepEvent env s2 (DEvent.noteOff tOff ch note)).state.files = s2.files) ∧
        (t + 26 ≤ tOff →
          (stepEvent env s2 (DEvent.noteOff tOff ch note)).calls =
            [AudioCall.stopPlayer f.PlayerId] ∧
          ∃ f2, (stepEvent env s2 (DEvent.noteOff tOff ch note)).state.files =
              pre ++ f2 :: post ∧ f2.PlayingCount = 0 ∧ f2.Name = f.Name) := by
  intro env ks tms pre post f t tOff ch note hpre hf hmeta hcorr hcnt hok hname htms s2 hs2
  have hcond : (f.Metadata.isSome : Prop) ∧ ¬(f.Corrupted : Prop) := by simp [hmeta, hcorr]
  have hone : playNoteList env ch note (f :: post) =
      ⟨(if f.PlayingCount > 0 then { f with PlayingCount := 0 } else f) :: post,
        (if f.PlayingCount > 0 then [AudioCall.stopPlayer f.PlayerId] else []) ++
          [AudioCall.playRegion f.PlayerId (activeFilename f) f.StartFrame f.EndFrame],
        false, some f.Name, true⟩ := by
    unfold playNoteList
    rw [if_pos hf, if_pos hcond]
    simp only [hok]
  have hs1 : (stepEvent env ⟨pre ++ f :: post, ks, tms⟩ (DEvent.noteOn t ch note)).state =
      ⟨pre ++ (if f.PlayingCount > 0 then { f with PlayingCount := 0 } else f) :: post,
       addTrigger ch note (fireDueTimers t ks tms).1,
       Trig.mk ch note (t + 26) :: (fireDueTimers t ks tms).2⟩ := by
    simp [stepEvent, playNoteList_skip env ch note pre (f :: post) hpre, hone]
  set f1 : WavFile := if f.PlayingCount > 0 then { f with PlayingCount := 0 } else f with hf1def
  have hf1name : f1.Name = f.Name := by
    rw [hf1def]; split <;> rfl
  have hf1pid : f1.PlayerId = f.PlayerId := by
    rw [hf1def]; split <;> rfl
  have hf1cnt : 0 ≤ f1.PlayingCount := by
    rw [hf1def]; split <;> simp [hcnt]
  have hf1match : midiMatches ch note f1 := by
    rw [hf1def]; constructor <;> (split <;> simp [hf.1, hf.2])
  have hT : ∀ tr ∈ (fireDueTimers t ks tms).2, ¬(tr.channel = ch ∧ tr.note = note) :=
    fun tr htr => htms tr (List.mem_of_mem_filter htr)
  have hs2' : s2 = ⟨pre ++ { f1 with PlayingCount := f1.PlayingCount + 1 } :: post,
      addTrigger ch note (fireDueTimers t ks tms).1,
      Trig.mk ch note (t + 26) :: (fireDueTimers t ks tms).2⟩ := by
    rw [hs2, hs1]
    simp only [stepEvent]
    rw [incPlaying_skip f.Name pre _ hname]
    simp [incPlaying, hf1name]
  constructor
  · intro htOff
    have hhas : hasTrigger ch note
        (fireDueTimers tOff s2.triggers s2.timers).1 = true := by
      rw [hs2']
      exact hasTrigger_survives ch note t tOff _ _ htOff hT
    constructor
    · simp [stepEvent, hhas]
    · simp [stepEvent, hhas]
  · intro htOff
    have hhasX : hasTrigger ch note
        (fireDueTimers tOff (addTrigger ch note (fireDueTimers t ks tms).1)
          (Trig.mk ch note (t + 26) :: (fireDueTimers t ks tms).2)).1 = false :=
      hasTrigger_fired ch note t tOff _ _ htOff
    have hf2match : midiMatches ch note ({ f1 with PlayingCount := f1.PlayingCount + 1 }) :=
      hf1match
    have hf2cnt : ({ f1 with PlayingCount := f1.PlayingCount + 1 } : WavFile).PlayingCount > 0 := by
      show f1.PlayingCount + 1 > 0
      omega
    have hstop : stopNoteList ch note (pre ++ { f1 with PlayingCount := f1.PlayingCount + 1 } :: post) =
        (pre ++ { f1 with PlayingCount := 0 } :: post, [AudioCall.stopPlayer f1.PlayerId]) := by
      rw [stopNoteList_skip ch note pre _ hpre]
      unfold stopNoteList
      rw [if_pos hf2match, if_pos hf2cnt]
    refine ⟨?_, { f1 with PlayingCount := 0 }, ?_, rfl, hf1name⟩
    · rw [hs2']
      simp only [stepEvent, hhasX, Bool.false_eq_true, if_false]
      rw [hstop, hf1pid]
    · rw [hs2']
      simp only [stepEvent, hhasX, Bool.false_eq_true, if_false]
      rw [hstop]

/-- Witness for C5's clauses at concrete times: a note-off at 10 (inside
the window of a lone note-on at 0) is silent, one at 40 stops and
zeroes. -/
theorem c5_witness :
    ((stepEvent envOkAll s2c (DEvent.noteOff 10 0 1)).calls = [] ∧
     (stepEvent envOkAll s2c (DEvent.noteOff 10 0 1)).state.files = s2c.files) ∧
    ((stepEvent envOkAll s2c (DEvent.noteOff 40 0 1)).calls =
       [AudioCall.stopPlayer kickLoaded.PlayerId] ∧
     ∃ f2, (stepEvent envOkAll s2c (DEvent.noteOff 40 0 1)).state.files = [] ++ f2 :: [] ∧
       f2.PlayingCount = 0 ∧ f2.Name = kickLoaded.Name) :=
  ⟨(c5_debounce envOkAll [] [] [] [] kickLoaded 0 10 0 1 (by simp) (by decide) (by decide) rfl
      (by decide) rfl (by simp) (by simp) s2c rfl).1 (by decide),
   (c5_debounce envOkAll [] [] [] [] kickLoaded 0 40 0 1 (by simp) (by decide) (by decide) rfl
      (by decide) rfl (by simp) (by simp) s2c rfl).2 (by decide)⟩

/-! ## Byte-level roundtrip lemmas -/

lemma readU16z_encodeU16 (v : Nat) (rest : List Nat) (h : v < 65536) :
    readU16z (encodeU16 v ++ rest) = v := by
  simp only [encodeU16, List.cons_append, List.nil_append, readU16z]
  omega

lemma readU32z_encodeU32 (v : Nat) (rest : List Nat) (h : v < 4294967296) :
    readU32z (encodeU32 v ++ rest) = v := by
  simp only [encodeU32, List.cons_append, List.nil_append, readU32z]
  omega

example (a b c d : Nat) (rest : List Nat) :
    checkMagic (82 :: 73 :: 70 :: 70 :: a :: b :: c :: d :: 87 :: 65 :: 86 :: 69 :: rest) =
      some rest := rfl

lemma readU16z_lt (l : List Nat) (h : ∀ b ∈ l, b < 256) : readU16z l < 65536 := by
  match l with
  | [] => simp [readU16z]
  | [b0] => simp [readU16z]
  | b0 :: b1 :: rest =>
    have h0 := h b0 (by simp)
    have h1 := h b1 (by simp)
    simp only [readU16z]
    omega

lemma readU32z_lt (l : List Nat) (h : ∀ b ∈ l, b < 256) : readU32z l < 4294967296 := by
  match l with
  | [] => simp [readU32z]
  | [b0] => simp [readU32z]
  | [b0, b1] => simp [readU32z]
  | [b0, b1, b2] => simp [readU32z]
  | b0 :: b1 :: b2 :: b3 :: rest =>
    have h0 := h b0 (by simp)
    have h1 := h b1 (by simp)
    have h2 := h b2 (by simp)
    have h3 := h b3 (by simp)
    simp only [readU32z]
    omega

lemma checkMagic_mem {bytes rest : List Nat} (h : checkMagic bytes = some rest) :
    ∀ b ∈ rest, b ∈ bytes := by
  unfold checkMagic at h
  split at h
  · obtain rfl := Option.some.injEq .. ▸ h
    intro b hb
    simp_all [List.mem_cons]
  · exact absurd h (by simp)

lemma takeChunkHeader_shape {bytes : List Nat} {i1 i2 i3 i4 z0 z1 z2 z3 : Nat}
    {body : List Nat}
    (h : takeChunkHeader bytes = some ((i1, i2, i3, i4), (z0, z1, z2, z3), body)) :
    bytes = i1 :: i2 :: i3 :: i4 :: z0 :: z1 :: z2 :: z3 :: body := by
  unfold takeChunkHeader at h
  split at h
  · simp_all
  · simp at h

lemma parseChunksAux_bounds :
    ∀ (fuel : Nat) (bytes : List Nat) (acc : Option FmtChunk) (fc : FmtChunk) (dd : Nat)
      (rest : List Nat),
      (∀ b ∈ bytes, b < 256) →
      (∀ g, acc = some g → FmtValid g) →
      parseChunksAux fuel bytes acc = some (fc, dd, rest) →
      FmtValid fc ∧ dd < 4294967296 := by
  intro fuel
  induction fuel with
  | zero => intro bytes acc fc dd rest _ _ h; simp [parseChunksAux] at h
  | succ n ih =>
    intro bytes acc fc dd rest hb hacc h
    cases h8 : takeChunkHeader bytes with
    | none => rw [parseChunksAux, h8] at h; simp at h
    | some hdr =>
      obtain ⟨⟨i1, i2, i3, i4⟩, ⟨z0, z1, z2, z3⟩, body⟩ := hdr
      obtain rfl := takeChunkHeader_shape h8
      simp only [parseChunksAux, h8] at h
      have hbody : ∀ b ∈ body, b < 256 := fun b hbmem => hb b (by simp [hbmem])
      split_ifs at h with h1 h2
      · refine ih _ _ fc dd rest (fun b hbmem => hbody b (List.mem_of_mem_drop hbmem)) ?_ h
        intro g hg
        obtain rfl := Option.some.injEq .. ▸ hg
        refine ⟨readU16z_lt _ hbody, readU16z_lt _ ?_, readU32z_lt _ ?_, readU32z_lt _ ?_,
          readU16z_lt _ ?_, readU16z_lt _ ?_⟩ <;>
          exact fun b hbmem => hbody b (List.mem_of_mem_drop hbmem)
      · match acc, h with
        | some g, h =>
          obtain ⟨rfl, rfl, rfl⟩ : g = fc ∧ (z0 + 256 * z1 + 65536 * z2 + 16777216 * z3) = dd ∧
              body = rest := by
            simpa using h
          have hz0 := hb z0 (by simp)
          have hz1 := hb z1 (by simp)
          have hz2 := hb z2 (by simp)
          have hz3 := hb z3 (by simp)
          exact ⟨hacc g rfl, by omega⟩
      · exact ih _ _ fc dd rest (fun b hbmem => hbody b (List.mem_of_mem_drop hbmem)) hacc h

lemma checkMagic_canonical (v : Nat) (tail : List Nat) :
    checkMagic ([82, 73, 70, 70] ++ encodeU32 v ++ [87, 65, 86, 69] ++ tail) = some tail := rfl

lemma parseChunksAux_step_fmt (fuel : Nat) (body : List Nat) (acc : Option FmtChunk) :
    parseChunksAux (fuel + 1) ([102, 109, 116, 32] ++ encodeU32 16 ++ body) acc =
      parseChunksAux fuel (body.drop 16)
        (some ⟨readU16z body, readU16z (body.drop 2), readU32z (body.drop 4),
               readU32z (body.drop 8), readU16z (body.drop 12), readU16z (body.drop 14)⟩) := by
  simp [parseChunksAux, encodeU32, takeChunkHeader]

lemma parseChunksAux_step_data (fuel : Nat) (dd : Nat) (data : List Nat) (f : FmtChunk)
    (hdd : dd < 4294967296) :
    parseChunksAux (fuel + 1) ([100, 97, 116, 97] ++ encodeU32 dd ++ data) (some f) =
      some (f, dd, data) := by
  simp [parseChunksAux, encodeU32, takeChunkHeader]
  omega

lemma fields_roundtrip (f : FmtChunk) (hf : FmtValid f) (tail : List Nat) :
    (⟨readU16z (encodeU16 f.audioFormat ++ encodeU16 f.numChannels ++ encodeU32 f.sampleRate ++
        encodeU32 f.byteRate ++ encodeU16 f.blockAlign ++ encodeU16 f.bitsPerSample ++ tail),
      readU16z ((encodeU16 f.audioFormat ++ encodeU16 f.numChannels ++ encodeU32 f.sampleRate ++
        encodeU32 f.byteRate ++ encodeU16 f.blockAlign ++ encodeU16 f.bitsPerSample ++ tail).drop 2),
      readU32z ((encodeU16 f.audioFormat ++ encodeU16 f.numChannels ++ encodeU32 f.sampleRate ++
        encodeU32 f.byteRate ++ encodeU16 f.blockAlign ++ encodeU16 f.bitsPerSample ++ tail).drop 4),
      readU32z ((encodeU16 f.audioFormat ++ encodeU16 f.numChannels ++ encodeU32 f.sampleRate ++
        encodeU32 f.byteRate ++ encodeU16 f.blockAlign ++ encodeU16 f.bitsPerSample ++ tail).drop 8),
      readU16z ((encodeU16 f.audioFormat ++ encodeU16 f.numChannels ++ encodeU32 f.sampleRate ++
        encodeU32 f.byteRate ++ encodeU16 f.blockAlign ++ encodeU16 f.bitsPerSample ++ tail).drop 12),
      readU16z ((encodeU16 f.audioFormat ++ encodeU16 f.numChannels ++ encodeU32 f.sampleRate ++
        encodeU32 f.byteRate ++ encodeU16 f.blockAlign ++ encodeU16 f.bitsPerSample ++ tail).drop 14)⟩
      : FmtChunk) = f ∧
    (encodeU16 f.audioFormat ++ encodeU16 f.numChannels ++ encodeU32 f.sampleRate ++
        encodeU32 f.byteRate ++ encodeU16 f.blockAlign ++ encodeU16 f.bitsPerSample ++ tail).drop 16
      = tail := by
  obtain ⟨h1, h2, h3, h4, h5, h6⟩ := hf
  constructor
  · simp only [encodeU16, encodeU32, List.cons_append, List.nil_append, List.drop_succ_cons,
      List.drop_zero, readU16z, readU32z]
    cases f
    simp_all
    omega
  · simp [encodeU16, encodeU32]

lemma parseFile_mkWavFileBytes (f : FmtChunk) (dd : Nat) (data : List Nat)
    (hf : FmtValid f) (hdd : dd < 4294967296) :
    parseFile (mkWavFileBytes f dd data) = some (f, dd, data) := by
  have hsplit : mkWavFileBytes f dd data =
      [82, 73, 70, 70] ++ encodeU32 (36 + dd) ++ [87, 65, 86, 69] ++
      ([102, 109, 116, 32] ++ encodeU32 16 ++
        (encodeU16 f.audioFormat ++ encodeU16 f.numChannels ++ encodeU32 f.sampleRate ++
         encodeU32 f.byteRate ++ encodeU16 f.blockAlign ++ encodeU16 f.bitsPerSample ++
         ([100, 97, 116, 97] ++ encodeU32 dd ++ data))) := by
    simp [mkWavFileBytes]
  have hlen : ([102, 109, 116, 32] ++ encodeU32 16 ++
      (encodeU16 f.audioFormat ++ encodeU16 f.numChannels ++ encodeU32 f.sampleRate ++
       encodeU32 f.byteRate ++ encodeU16 f.blockAlign ++ encodeU16 f.bitsPerSample ++
       ([100, 97, 116, 97] ++ encodeU32 dd ++ data))).length + 1 =
      (31 + data.length) + 1 + 1 := by
    simp [encodeU16, encodeU32]
    omega
  rw [parseFile, hsplit, checkMagic_canonical, Option.some_bind, hlen,
    parseChunksAux_step_fmt]
  obtain ⟨hfr1, hfr2⟩ := fields_roundtrip f hf ([100, 97, 116, 97] ++ encodeU32 dd ++ data)
  rw [hfr1, hfr2, parseChunksAux_step_data _ _ _ _ hdd]

lemma readSamples_eq_readLoop (bits ch n : Nat) (bytes : List Nat)
    (h : bits = 8 ∨ bits = 16 ∨ bits = 24) :
    readSamples bits ch n bytes = readLoop (bits / 8) ch (decFor bits) n bytes := by
  rcases h with rfl | rfl | rfl <;> rfl

lemma strideOf_eq (bps ch : Nat) (h : 1 ≤ ch) : strideOf bps ch = ch * bps := by
  unfold strideOf chanSkip
  split_ifs with hch
  · have h1 : ch - 1 + 1 = ch := by omega
    calc bps + (ch - 1) * bps = (ch - 1 + 1) * bps := by ring
    _ = ch * bps := by rw [h1]
  · have : ch = 1 := by omega
    subst this
    ring_nf

lemma readLoop_length (bps ch : Nat) (dec : List Nat → ℚ) :
    ∀ (n : Nat) (bytes : List Nat) (L : List ℚ),
      readLoop bps ch dec n bytes = some L → L.length = n := by
  intro n
  induction n with
  | zero => intro bytes L h; simp [readLoop] at h; simp [← h]
  | succ m ih =>
    intro bytes L h
    match bytes, h with
    | [], h =>
      simp only [readLoop] at h
      simp [← Option.some.injEq .. ▸ h]
    | b :: bs, h =>
      rw [readLoop] at h
      split_ifs at h
      obtain ⟨L2, hL2, rfl⟩ := Option.map_eq_some'.mp h
      simp [ih _ _ hL2]

lemma readLoop_full (bps ch : Nat) (hbps : 0 < bps) (dec : List Nat → ℚ) :
    ∀ (n : Nat) (bytes : List Nat), n * strideOf bps ch ≤ bytes.length →
      readLoop bps ch dec n bytes =
        some ((List.range n).map fun j => dec ((bytes.drop (j * strideOf bps ch)).take bps)) := by
  intro n
  induction n with
  | zero => intro bytes _; simp [readLoop]
  | succ m ih =>
    intro bytes hlen
    have hstride : bps ≤ strideOf bps ch := Nat.le_add_right _ _
    have hone : strideOf bps ch ≤ (m + 1) * strideOf bps ch :=
      Nat.le_mul_of_pos_left _ (Nat.succ_pos m)
    have hb1 : bps ≤ bytes.length := le_trans hstride (le_trans hone hlen)
    match bytes, hb1, hlen with
    | [], hb1, _ => simp at hb1; omega
    | b :: bs, hb1, hlen =>
      rw [readLoop, if_neg (by simp at hb1 ⊢; omega)]
      have hrec : m * strideOf bps ch ≤ ((b :: bs).drop (strideOf bps ch)).length := by
        rw [List.length_drop]
        have h3 : (m + 1) * strideOf bps ch = m * strideOf bps ch + strideOf bps ch := by ring
        have h4 : (m + 1) * strideOf bps ch ≤ (b :: bs).length := hlen
        omega
      rw [ih _ hrec]
      simp only [Option.map_some', Option.some.injEq]
      rw [List.range_succ_eq_map]
      simp only [List.map_cons, List.map_map]
      congr 1
      · simp
      · apply List.map_congr_left
        intro j _
        simp only [Function.comp_apply]
        have harg : ((b :: bs).drop (strideOf bps ch)).drop (j * strideOf bps ch) =
            (b :: bs).drop (j.succ * strideOf bps ch) := by
          rw [List.drop_drop]
          congr 1
          simp [Nat.succ_eq_add_one]
          ring_nf
        rw [harg]

lemma readLoop_trunc (bps ch : Nat) (hbps : 0 < bps) (dec : List Nat → ℚ) :
    ∀ (m : Nat) (n : Nat) (bytes : List Nat), bytes.length = m * strideOf bps ch → m ≤ n →
      readLoop bps ch dec n bytes =
        some (((List.range m).map fun j => dec ((bytes.drop (j * strideOf bps ch)).take bps)) ++
          List.replicate (n - m) 0) := by
  intro m
  induction m with
  | zero =>
    intro n bytes hlen _
    have hb : bytes = [] := List.eq_nil_of_length_eq_zero (by simpa using hlen)
    subst hb
    cases n with
    | zero => simp [readLoop]
    | succ k => simp [readLoop]
  | succ m ih =>
    intro n bytes hlen hmn
    have hstride : bps ≤ strideOf bps ch := Nat.le_add_right _ _
    have hone : strideOf bps ch ≤ (m + 1) * strideOf bps ch :=
      Nat.le_mul_of_pos_left _ (Nat.succ_pos m)
    have hb1 : bps ≤ bytes.length := by rw [hlen]; exact le_trans hstride hone
    match n, hmn with
    | n + 1, hmn =>
      match bytes, hb1, hlen with
      | [], hb1, _ => simp at hb1; omega
      | b :: bs, hb1, hlen =>
        rw [readLoop, if_neg (by simp at hb1 ⊢; omega)]
        have hrec : ((b :: bs).drop (strideOf bps ch)).length = m * strideOf bps ch := by
          rw [List.length_drop]
          have h3 : (m + 1) * strideOf bps ch = m * strideOf bps ch + strideOf bps ch := by ring
          have h4 : (b :: bs).length = (m + 1) * strideOf bps ch := hlen
          omega
        rw [ih n _ hrec (by omega)]
        simp only [Option.map_some', Option.some.injEq]
        rw [List.range_succ_eq_map]
        simp only [List.map_cons, List.map_map, List.cons_append]
        congr 1
        · simp
        congr 1
        · apply List.map_congr_left
          intro j _
          simp only [Function.comp_apply]
          have harg : ((b :: bs).drop (strideOf bps ch)).drop (j * strideOf bps ch) =
              (b :: bs).drop (j.succ * strideOf bps ch) := by
            rw [List.drop_drop]
            congr 1
            simp [Nat.succ_eq_add_one]
            ring_nf
          rw [harg]
        · congr 1
          omega

lemma readLoop_getElem (bps ch : Nat) (hbps : 0 < bps) (dec : List Nat → ℚ) :
    ∀ (n : Nat) (bytes : List Nat) (L : List ℚ), readLoop bps ch dec n bytes = some L →
      ∀ j, j < n → j * strideOf bps ch + bps ≤ bytes.length →
        L[j]? = some (dec ((bytes.drop (j * strideOf bps ch)).take bps)) := by
  intro n
  induction n with
  | zero => intro bytes L _ j hj; omega
  | succ m ih =>
    intro bytes L hL j hj hjb
    match bytes, hL, hjb with
    | [], hL, hjb => simp at hjb; omega
    | b :: bs, hL, hjb =>
      rw [readLoop] at hL
      split_ifs at hL with hshort
      obtain ⟨L2, hL2, rfl⟩ := Option.map_eq_some'.mp hL
      match j, hj, hjb with
      | 0, _, _ => simp
      | j + 1, hj, hjb =>
        have hlen2 : j * strideOf bps ch + bps ≤ ((b :: bs).drop (strideOf bps ch)).length := by
          rw [List.length_drop]
          have h3 : (j + 1) * strideOf bps ch = j * strideOf bps ch + strideOf bps ch := by ring
          have h4 : (j + 1) * strideOf bps ch + bps ≤ (b :: bs).length := hjb
          omega
        have := ih _ _ hL2 j (by omega) hlen2
        simp only [List.getElem?_cons_succ, this]
        have harg : ((b :: bs).drop (strideOf bps ch)).drop (j * strideOf bps ch) =
            (b :: bs).drop ((j + 1) * strideOf bps ch) := by
          rw [List.drop_drop]
          congr 1
          ring_nf
        rw [harg]

/-- C7 counterexample: a file declaring 2 frames whose data ends after 1
decodes without error, but `frameCount` is the declared 2 — not the 1
sample actually read — and the sample array is zero-padded. -/
theorem c7_counterexample :
    (decodeWav truncatedWavBytes).map (fun p => (p.1.sampleRate, p.1.numFrames, p.2)) =
      some (8000, 2, [decQ16 [5, 0], 0]) ∧
    ¬ (decodeWav truncatedWavBytes).map (fun p => p.1.numFrames) = some 1 := by
  constructor
  · rfl
  · decide

/-- C7 (amended): when the sample data of a standard-layout WAV file ends
at a frame boundary before the declared data size is consumed, Decode
succeeds and returns `frameCount` equal to the DECLARED count
(`dataSize / blockAlign`); the samples actually read form a prefix and
the unread tail is zero-filled. -/
theorem c7_truncated_decode :
    ∀ (f : FmtChunk) (dd m : Nat) (data : List Nat),
      FmtValid f → dd < 4294967296 →
      1 ≤ f.numChannels →
      f.blockAlign = f.numChannels * (f.bitsPerSample / 8) →
      (f.bitsPerSample = 8 ∨ f.bitsPerSample = 16 ∨ f.bitsPerSample = 24) →
      f.blockAlign ≠ 0 →
      data.length = m * f.blockAlign →
      m ≤ dd / f.blockAlign →
      ∃ samples : List ℚ,
        samples = ((List.range m).map fun j =>
            decFor f.bitsPerSample ((data.drop (j * f.blockAlign)).take (f.bitsPerSample / 8))) ++
          List.replicate (dd / f.blockAlign - m) 0 ∧
        decodeWav (mkWavFileBytes f dd data) =
          some ({ sampleRate := f.sampleRate, numFrames := dd / f.blockAlign,
                  peaks := calculateWaveformData samples 2000 }, samples) := by
  intro f dd m data hf hdd hch hcons hbits hba hlen hm
  have hbps : 0 < f.bitsPerSample / 8 := by rcases hbits with h | h | h <;> simp [h]
  have hstride : strideOf (f.bitsPerSample / 8) f.numChannels = f.blockAlign := by
    rw [strideOf_eq _ _ hch, ← hcons]
  refine ⟨_, rfl, ?_⟩
  simp only [decodeWav, parseFile_mkWavFileBytes f dd data hf hdd]
  rw [if_neg hba, readSamples_eq_readLoop _ _ _ _ hbits,
    readLoop_trunc _ _ hbps _ m (dd / f.blockAlign) data (by rw [hlen, hstride]) hm]
  simp only [hstride, Option.some.injEq, Prod.mk.injEq]
  constructor
  · congr 1
    simp only [List.length_append, List.length_map, List.length_range, List.length_replicate]
    omega
  · trivial

/-- Witness for C7 on the one-of-two-frames truncated file. -/
theorem c7_witness :
    ∃ samples : List ℚ,
      samples = ((List.range 1).map fun j =>
          decFor 16 (([5, 0].drop (j * 2)).take 2)) ++ List.replicate (4 / 2 - 1) 0 ∧
      decodeWav (mkWavFileBytes ⟨1, 1, 8000, 16000, 2, 16⟩ 4 [5, 0]) =
        some ({ sampleRate := 8000, numFrames := 4 / 2,
                peaks := calculateWaveformData samples 2000 }, samples) :=
  c7_truncated_decode ⟨1, 1, 8000, 16000, 2, 16⟩ 4 1 [5, 0] (by decide) (by decide) (by decide)
    (by decide) (by decide) (by decide) (by decide) (by decide)

lemma readSamples_bits {bits ch n : Nat} {bytes : List Nat} {res : List ℚ}
    (h : readSamples bits ch n bytes = some res) : bits = 8 ∨ bits = 16 ∨ bits = 24 := by
  unfold readSamples at h
  split at h
  · exact Or.inr (Or.inl rfl)
  · exact Or.inl rfl
  · exact Or.inr (Or.inr rfl)
  · simp at h

/-- C2 (amended): for every WAV file whose decode succeeds, whose
`blockAlign` is consistent (`numChannels * bytesPerSample`), and for every
region `s <= e < frameCount` on which `TrimFile` succeeds, re-decoding the
trimmed file yields `frameCount = e - s + 1` and exactly the `[s, e]`
slice of the pre-trim decode. -/
theorem c2_trim_roundtrip :
    ∀ (bytes : List Nat) (s e : Nat) (fc : FmtChunk) (dd : Nat) (rest : List Nat)
      (md : WavMetadata) (samples : List ℚ) (out : List Nat),
      (∀ b ∈ bytes, b < 256) →
      parseFile bytes = some (fc, dd, rest) →
      fc.blockAlign = fc.numChannels * (fc.bitsPerSample / 8) →
      1 ≤ fc.numChannels →
      decodeWav bytes = some (md, samples) →
      s ≤ e → e < md.numFrames →
      trimFile bytes s e = some out →
      ∃ md2 samples2, decodeWav out = some (md2, samples2) ∧
        md2.numFrames = e - s + 1 ∧
        samples2 = (samples.drop s).take (e - s + 1) := by
  intro bytes s e fc dd rest md samples out hbytes hparse hcons hch hdec hse he htrim
  simp only [decodeWav, hparse] at hdec
  by_cases hba : fc.blockAlign = 0
  · rw [if_pos hba] at hdec; simp at hdec
  rw [if_neg hba] at hdec
  cases hrs : readSamples fc.bitsPerSample fc.numChannels (dd / fc.blockAlign) rest with
  | none => rw [hrs] at hdec; simp at hdec
  | some s0 =>
    rw [hrs] at hdec
    have hpair : some ((⟨fc.sampleRate, s0.length, calculateWaveformData s0 2000⟩ : WavMetadata),
        s0) = some (md, samples) := hdec
    injection hpair with hpair2
    injection hpair2 with h1 h2
    subst h1
    subst h2
    have hbits := readSamples_bits hrs
    have hbps0 : 0 < fc.bitsPerSample / 8 := by rcases hbits with h | h | h <;> simp [h]
    have hstride : strideOf (fc.bitsPerSample / 8) fc.numChannels = fc.blockAlign := by
      rw [strideOf_eq _ _ hch, ← hcons]
    rw [readSamples_eq_readLoop _ _ _ _ hbits] at hrs
    have hslen : s0.length = dd / fc.blockAlign := readLoop_length _ _ _ _ _ _ hrs
    -- decompose the trim call
    simp only [trimFile, hparse] at htrim
    split_ifs at htrim with hlt
    push_neg at hlt
    simp only [List.length_drop] at hlt
    injection htrim with htrim2
    have htake_len : (List.take ((e + 1 - s) * fc.blockAlign)
        (List.drop (s * fc.blockAlign) rest)).length = (e + 1 - s) * fc.blockAlign := by
      simp only [List.length_take, List.length_drop]
      omega
    subst htrim2
    have hfvdd : FmtValid fc ∧ dd < 4294967296 := by
      rw [parseFile] at hparse
      cases hcm : checkMagic bytes with
      | none => rw [hcm] at hparse; simp at hparse
      | some r0 =>
        rw [hcm, Option.some_bind] at hparse
        exact parseChunksAux_bounds _ _ _ _ _ _
          (fun b hb => hbytes b (checkMagic_mem hcm b hb)) (by simp) hparse
    obtain ⟨hfv, hdd32⟩ := hfvdd
    have he2 : e < s0.length := he
    have hn_le : e + 1 - s ≤ dd / fc.blockAlign := by omega
    have hdlen32 : (e + 1 - s) * fc.blockAlign < 4294967296 :=
      lt_of_le_of_lt (le_trans (Nat.mul_le_mul_right _ hn_le) (Nat.div_mul_le_self dd _)) hdd32
    rw [htake_len]
    have hTlen : (e + 1 - s) * strideOf (fc.bitsPerSample / 8) fc.numChannels ≤
        (List.take ((e + 1 - s) * fc.blockAlign) (List.drop (s * fc.blockAlign) rest)).length := by
      rw [hstride, htake_len]
    simp only [decodeWav,
      parseFile_mkWavFileBytes fc ((e + 1 - s) * fc.blockAlign) _ hfv hdlen32]
    rw [if_neg hba]
    have hdiv : (e + 1 - s) * fc.blockAlign / fc.blockAlign = e + 1 - s :=
      Nat.mul_div_cancel _ (Nat.pos_of_ne_zero hba)
    rw [hdiv, readSamples_eq_readLoop _ _ _ _ hbits, readLoop_full _ _ hbps0 _ (e + 1 - s) _ hTlen]
    refine ⟨_, _, rfl, ?_, ?_⟩
    · simp only [List.length_map, List.length_range]
      omega
    · have hbps_le_ba : fc.bitsPerSample / 8 ≤ fc.blockAlign := by
        rw [hcons]
        exact Nat.le_mul_of_pos_left _ hch
      have hppos : 0 < fc.blockAlign := Nat.pos_of_ne_zero hba
      have hsn : s * fc.blockAlign + (e + 1 - s) * fc.blockAlign ≤ rest.length := by
        have h0 : 0 < (e + 1 - s) * fc.blockAlign := Nat.mul_pos (by omega) hppos
        omega
      apply List.ext_getElem?
      intro j
      by_cases hj : j < e + 1 - s
      · rw [List.getElem?_map, List.getElem?_range hj, Option.map_some']
        rw [List.getElem?_take, if_pos (by omega : j < e - s + 1), List.getElem?_drop]
        have hidx : s + j < dd / fc.blockAlign := by omega
        have hblen : (s + j) * strideOf (fc.bitsPerSample / 8) fc.numChannels +
            fc.bitsPerSample / 8 ≤ rest.length := by
          rw [hstride]
          have h1 : (s + j) * fc.blockAlign + fc.blockAlign = (s + j + 1) * fc.blockAlign := by ring
          have h2 : (s + j + 1) * fc.blockAlign ≤ (s + (e + 1 - s)) * fc.blockAlign :=
            Nat.mul_le_mul_right _ (by omega)
          have h3 : (s + (e + 1 - s)) * fc.blockAlign =
              s * fc.blockAlign + (e + 1 - s) * fc.blockAlign := by ring
          omega
        rw [readLoop_getElem _ _ hbps0 _ _ _ _ hrs (s + j) hidx hblen]
        congr 1
        rw [hstride, List.drop_take, List.drop_drop, List.take_take]
        have hmin2 : fc.bitsPerSample / 8 ⊓ ((e + 1 - s) * fc.blockAlign - j * fc.blockAlign) =
            fc.bitsPerSample / 8 := by
          apply inf_eq_left.mpr
          have h4 : j * fc.blockAlign + fc.blockAlign ≤ (e + 1 - s) * fc.blockAlign := by
            have := Nat.mul_le_mul_right fc.blockAlign (by omega : j + 1 ≤ e + 1 - s)
            calc j * fc.blockAlign + fc.blockAlign = (j + 1) * fc.blockAlign := by ring
            _ ≤ (e + 1 - s) * fc.blockAlign := this
          omega
        rw [hmin2]
        congr 1
        ring_nf
      · rw [List.getElem?_eq_none, List.getElem?_eq_none]
        · exact le_trans (List.length_take_le _ _) (by omega)
        · simp only [List.length_map, List.length_range]
          omega

/-- C2 counterexample: a decodable 16-bit mono file whose declared
`blockAlign` is 4 (inconsistent with its sample width) satisfies every
hypothesis of the claim, and trimming region [1,1] succeeds — but the
re-decoded samples are not the [1,1] slice of the pre-trim decode. -/
theorem c2_counterexample :
    (decodeWav inconsistentWavBytes).map (fun p => p.2) =
      some [decQ16 [1, 0], decQ16 [2, 0]] ∧
    ((trimFile inconsistentWavBytes 1 1).bind decodeWav).map (fun p => (p.1.numFrames, p.2)) =
      some (1, [decQ16 [3, 0]]) ∧
    [decQ16 [3, 0]] ≠
      (([decQ16 [1, 0], decQ16 [2, 0]] : List ℚ).drop 1).take (1 - 1 + 1) := by
  refine ⟨rfl, rfl, ?_⟩
  intro h
  simp only [List.drop_succ_cons, List.drop_zero, List.take_succ_cons, List.take_zero,
    List.cons.injEq, and_true] at h
  rw [show decQ16 [3, 0] = (3 : ℚ) / 32768 by norm_num [decQ16, readU16z],
    show decQ16 [2, 0] = (2 : ℚ) / 32768 by norm_num [decQ16, readU16z]] at h
  norm_num at h

/-- Witness for C2 on a consistent four-frame file trimmed to [1,2]. -/
theorem c2_witness :
    ∃ md2 samples2, decodeWav goodTrimmed = some (md2, samples2) ∧
      md2.numFrames = 2 - 1 + 1 ∧
      samples2 = (([decQ16 [1, 0], decQ16 [2, 0], decQ16 [3, 0], decQ16 [4, 0]] :
        List ℚ).drop 1).take (2 - 1 + 1) :=
  c2_trim_roundtrip goodWavBytes 1 2 ⟨1, 1, 8000, 16000, 2, 16⟩ 8
    [1, 0, 2, 0, 3, 0, 4, 0]
    ⟨8000, 4, calculateWaveformData
      [decQ16 [1, 0], decQ16 [2, 0], decQ16 [3, 0], decQ16 [4, 0]] 2000⟩
    [decQ16 [1, 0], decQ16 [2, 0], decQ16 [3, 0], decQ16 [4, 0]]
    goodTrimmed (by decide) rfl (by decide) (by decide) rfl (by decide) (by decide) rfl
